import Mathlib

/-!
# EHMTX_queue: rendering of one queue slot on a 32x8 matrix

A shallow embedding of `components/ehmtxv2/EHMTX_queue.cpp` and the
properties of its heat simulator, scroll engine, hold extension, hue
animator, day/weekday overlay and renderer.

Machine integers are natural numbers; every place where the C++ code narrows
a value to an 8-, 16- or 32-bit variable is written as an explicit `%`.
-/

namespace EHMTXv2

/-! ## Colours and the heat-colour ramp -/

/-- An RGB colour as built by `Color(red, green, blue)`; each channel is a `uint8_t`. -/
structure Color where
  r : Nat
  g : Nat
  b : Nat
deriving DecidableEq

/-- The function `EHMTX_queue::heatColor(uint8_t temperature)`.

`t192` is a `uint8_t` that receives a 32-bit unsigned product divided by 255;
`heatRamp` is a `uint8_t` that is masked and then shifted left in place. -/
def heatColor (temperature : Nat) : Color :=
  let t192 := (temperature * 191 % 2 ^ 32 / 255) % 256
  let heatRamp := (t192 &&& 0x3f) % 256
  let heatRamp := (heatRamp <<< 2) % 256
  if t192 &&& 0x80 ≠ 0 then
    Color.mk 255 255 heatRamp
  else if t192 &&& 0x40 ≠ 0 then
    Color.mk 255 heatRamp 0
  else
    Color.mk heatRamp 0 0

/-- The scaled temperature of the specification, `t * 191 / 255`. -/
def scaled192 (t : Nat) : Nat := t * 191 / 255

/-- The ramp of the specification, `(t192 AND 0x3F) * 4`. -/
def rampRef (t : Nat) : Nat := (scaled192 t &&& 0x3F) * 4

/-- The three-band reference of the specification: bit 7 of `t192` selects
`(255, 255, ramp)`, otherwise bit 6 selects `(255, ramp, 0)`, otherwise the
colour is `(ramp, 0, 0)`. -/
def heatColorRef (t : Nat) : Color :=
  if (scaled192 t).testBit 7 then Color.mk 255 255 (rampRef t)
  else if (scaled192 t).testBit 6 then Color.mk 255 (rampRef t) 0
  else Color.mk (rampRef t) 0 0

/-- The band of a temperature: bits 7 and 6 of its scaled value. -/
def band (t : Nat) : Bool × Bool := ((scaled192 t).testBit 7, (scaled192 t).testBit 6)

/-- The channel of a colour that carries the ramp in the band of `t`: blue in
the hottest band, green in the middle band, red in the coolest band. -/
def rampChannel (t : Nat) (c : Color) : Nat :=
  if (scaled192 t).testBit 7 then c.b
  else if (scaled192 t).testBit 6 then c.g
  else c.r

/-- The two channels of a colour that do not carry the ramp in the band of `t`. -/
def fixedChannels (t : Nat) (c : Color) : Nat × Nat :=
  if (scaled192 t).testBit 7 then (c.r, c.g)
  else if (scaled192 t).testBit 6 then (c.r, c.b)
  else (c.g, c.b)

/-! ## Heat simulator (`case MODE_FIRE` of `EHMTX_queue::draw`) -/

/-- The integer conversions applied where the code stores into a `uint8_t`
or a `uint16_t` variable. -/
structure Casts where
  u8 : Nat → Nat
  u16 : Nat → Nat

/-- The conversions of the target: a `uint8_t` keeps the low 8 bits, a
`uint16_t` the low 16 bits. -/
def machine : Casts := ⟨fun n => n % 256, fun n => n % 65536⟩

/-- No narrowing at all: the same code computed over unbounded integers. -/
def unbounded : Casts := ⟨fun n => n, fun n => n⟩

/-- The buffer `m_heat` of `m_heatSize = 8 * 32` temperatures (`uint8_t`
each), as the list of its cells. -/
abbrev Heat := List Nat

/-- The constant `m_heatSize`. -/
def m_heatSize : Nat := 8 * 32

/-- The constant `COOLING`. -/
def COOLING : Nat := 60

/-- The constant `SPARKING`. -/
def SPARKING : Nat := 120

/-- The outcomes of the calls of `random` during one frame: `cool x y` is
`random(0, (COOLING * 10U) / 8)` for the cell in column `x` and row `y`,
`spark x` is `random(0, 255)` and `amount x` is `random(160, 255)` for
column `x`. -/
structure Draws where
  cool : Nat → Nat → Nat
  spark : Nat → Nat
  amount : Nat → Nat

/-- The draws are results `random(lo, hi)` can return, `lo ≤ r < hi`, for
every cell of the 32x8 grid. -/
def Draws.valid (d : Draws) : Prop :=
  ∀ x, x < 32 → ((∀ y, y < 8 → d.cool x y < COOLING * 10 / 8) ∧ d.spark x < 255 ∧
    160 ≤ d.amount x ∧ d.amount x < 255)

instance (d : Draws) : Decidable d.valid := by
  unfold Draws.valid
  infer_instance

/-- The read `m_heat[i]`. -/
def load (h : Heat) (i : Nat) : Nat := h.getD i 0

/-- The assignment `m_heat[i] = v`. -/
def store (h : Heat) (i v : Nat) : Heat := h.set i v

/-- The buffer has its `m_heatSize` cells and every cell holds a value in
`[0, 255]`. -/
def InRange (h : Heat) : Prop :=
  h.length = m_heatSize ∧ ∀ i, i < m_heatSize → load h i ≤ 255

instance (h : Heat) : Decidable (InRange h) := by
  unfold InRange
  infer_instance

/-- Step 1 for one cell: the body of the cooling loop. -/
def coolCell (c : Casts) (d : Draws) (x : Nat) (h : Heat) (y : Nat) : Heat :=
  let coolDownTemperature := c.u8 (d.cool x y + 2)
  let heatPos := x + y * 32
  if coolDownTemperature ≥ load h heatPos then
    store h heatPos 0
  else
    store h heatPos (c.u8 (load h heatPos - coolDownTemperature))

/-- Step 2 for one cell: the body of the diffusion loop. -/
def diffuseCell (c : Casts) (x : Nat) (h : Heat) (y : Nat) : Heat :=
  let diffusHeat := 0
  let diffusHeat :=
    if 8 - 2 > y then
      let diffusHeat := c.u16 (diffusHeat + load h (x + (y + 1) * 32))
      let diffusHeat := c.u16 (diffusHeat + load h (x + (y + 1) * 32))
      let diffusHeat := c.u16 (diffusHeat + load h (x + (y + 2) * 32))
      c.u16 (diffusHeat / 3)
    else
      let diffusHeat := c.u16 (diffusHeat + load h (x + (y + 0) * 32))
      let diffusHeat := c.u16 (diffusHeat + load h (x + (y + 0) * 32))
      let diffusHeat := c.u16 (diffusHeat + load h (x + (y + 1) * 32))
      c.u16 (diffusHeat / 3)
  store h (x + y * 32) (c.u8 diffusHeat)

/-- Step 3 for one column: the spark at the bottom row. -/
def sparkColumn (c : Casts) (d : Draws) (x : Nat) (h : Heat) : Heat :=
  if d.spark x < SPARKING then
    let randValue := c.u8 (d.amount x)
    let heatPos := x + (8 - 1) * 32
    let heat := c.u16 (load h heatPos + randValue)
    if 255 < heat then
      store h heatPos 255
    else
      store h heatPos (c.u8 heat)
  else
    h

/-- Step 1 for one column: `for (y = 0; y < 8; ++y)`. -/
def coolColumn (c : Casts) (d : Draws) (x : Nat) (h : Heat) : Heat :=
  (List.range 8).foldl (coolCell c d x) h

/-- Step 2 for one column: `for (y = 0; y < (8 - 1U); ++y)`, updating the
buffer in place. -/
def diffuseColumn (c : Casts) (x : Nat) (h : Heat) : Heat :=
  (List.range (8 - 1)).foldl (diffuseCell c x) h

/-- Steps 1 to 3 for column `x`. -/
def fireColumn (c : Casts) (d : Draws) (h : Heat) (x : Nat) : Heat :=
  sparkColumn c d x (diffuseColumn c x (coolColumn c d x h))

/-- The heat buffer after one frame: `for (x = 0; x < 32; ++x)`. -/
def fireStep (c : Casts) (h : Heat) (d : Draws) : Heat :=
  (List.range 32).foldl (fireColumn c d) h

/-- The colours passed to `draw_pixel_at(x, y, ...)` in step 4 for column `x`. -/
def firePixels (h : Heat) (x : Nat) : List (Nat × Nat × Color) :=
  (List.range 8).map fun y => (x, y, heatColor (load h (x + y * 32)))

/-- The heat buffer after the frames whose draws are `ds`, in order. -/
def fireRun (c : Casts) (h : Heat) (ds : List Draws) : Heat :=
  ds.foldl (fireStep c) h

/-- The all-zero grid. -/
def zeroHeat : Heat := List.replicate m_heatSize 0

/-- A sample grid with every value of `[0, 255]` in it. -/
def sampleHeat : Heat := (List.range m_heatSize).map fun i => (i * 37 + 5) % 256

/-- A sample frame of draws; columns 0 to 14 spark. -/
def sampleDraws : Draws :=
  ⟨fun x y => (x * 7 + y * 11) % 75, fun x => x * 8, fun x => 160 + x * 3⟩

/-! ## Slot, shared context and build configuration -/

/-- Modelled from the spec: the enumeration of slot modes is declared in the
class header, which is not part of the source; these are the modes that
`EHMTX_queue::status` and `EHMTX_queue::draw` name. -/
inductive Mode where
  | MODE_EMPTY
  | MODE_BLANK
  | MODE_COLOR
  | MODE_CLOCK
  | MODE_DATE
  | MODE_GRAPH_SCREEN
  | MODE_FULL_SCREEN
  | MODE_ICON_SCREEN
  | MODE_ICON_PROGRESS
  | MODE_ICON_CLOCK
  | MODE_ICON_DATE
  | MODE_ALERT_SCREEN
  | MODE_TEXT_SCREEN
  | MODE_RAINBOW_ICON
  | MODE_RAINBOW_TEXT
  | MODE_RAINBOW_CLOCK
  | MODE_RAINBOW_DATE
  | MODE_ICON_TEXT_SCREEN
  | MODE_RAINBOW_ICON_TEXT_SCREEN
  | MODE_FIRE
  | MODE_BITMAP_SCREEN
  | MODE_BITMAP_SMALL
  | MODE_RAINBOW_BITMAP_SMALL
deriving DecidableEq

open Mode

/-- The build-time switches and constants the code reads through the
preprocessor: `EHMTXv2_USE_RTL` and `EHMTXv2_SCROLL_SMALL_TEXT` are defined or
not; the other three are numeric macros. -/
structure Build where
  EHMTXv2_USE_RTL : Bool
  EHMTXv2_SCROLL_SMALL_TEXT : Bool
  EHMTXv2_SCROLL_COUNT : Nat
  EHMTXv2_SCROLL_INTERVALL : Nat
  EHMTXv2_RAINBOW_INTERVALL : Nat
deriving DecidableEq

/-- The default layout policy: left to right, short text is not scrolled. -/
def Build.isDefault (b : Build) : Prop :=
  b.EHMTXv2_USE_RTL = false ∧ b.EHMTXv2_SCROLL_SMALL_TEXT = false

instance (b : Build) : Decidable b.isDefault := by
  unfold Build.isDefault
  infer_instance

/-- A font handle (`display::BaseFont *`). -/
structure Font where
  id : Nat
deriving DecidableEq

/-- An entry of the icon table: its frame duration and the frame it shows. -/
structure Icon where
  frame_duration : Nat
  current_frame : Nat
deriving DecidableEq

/-- Modelled from the spec: the slot record `EHMTX_queue`, whose class
declaration is not part of the source. The fields are those the source
assigns and reads; the numeric fields hold the value assigned to them, as no
width is given for them. -/
structure EHMTX_queue where
  endtime : Nat
  last_time : Nat
  screen_time_ : Nat
  mode : Mode
  icon_name : String
  icon : Nat
  text : String
  default_font : Bool
  progress : Int
  sbitmap : Option (List Color)
  text_color : Color
  progressbar_color : Color
  progressbar_back_color : Color
  pixels_ : Nat
  scroll_reset : Nat
deriving DecidableEq

/-- Modelled from the spec: the shared render context `EHMTX` behind
`config_`, whose class declaration is not part of the source. The fields are
those the modelled functions read and write. -/
structure EHMTX where
  is_running : Bool
  display_gauge : Bool
  scroll_step : Nat
  hue_ : Nat
  rainbow_color : Color
  last_rainbow_time : Nat
  last_anim_time : Nat
  next_action_time : Nat
  icon_count : Nat
  icons : List Icon
  default_font : Font
  special_font : Font
deriving DecidableEq

/-- The capabilities of the collaborators that the modelled functions call:
the width `w` that `display->get_text_bounds` reports for a text in a font,
the colour that `hsv_to_rgb(hue, 0.8, 0.8, ...)` and the three `uint8_t(255 * _)`
conversions produce for a hue, and `next_frame()` of an icon. -/
structure Env where
  get_text_bounds : Font → String → Nat
  hsv_to_rgb : Nat → Color
  next_frame : Icon → Icon

/-- The readings of `millis()` during one `update_screen`, in call order: the
rainbow test, the rainbow store, the animation test, the animation store. -/
structure Millis where
  rainbow_test : Nat
  rainbow_store : Nat
  anim_test : Nat
  anim_store : Nat
deriving DecidableEq

/-! ## Scroll engine -/

/-- The number of low bits a `float` drops from `n`: the number of halvings
that bring `n` below `2 ^ 24`. The first argument bounds the search. -/
def droppedBits : Nat → Nat → Nat
  | 0, _ => 0
  | fuel + 1, n => if n < 2 ^ 24 then 0 else 1 + droppedBits fuel (n / 2)

/-- The conversion `(float) n` of a non-negative integer: the nearest value
with a 24-bit significand, ties to the even significand. -/
def toFloat (n : Nat) : Nat :=
  if n < 2 ^ 24 then n
  else
    let e := droppedBits n n
    let q := n / 2 ^ e
    let r := n % 2 ^ e
    let half := 2 ^ (e - 1)
    if r < half then q * 2 ^ e
    else if half < r then (q + 1) * 2 ^ e
    else if q % 2 = 0 then q * 2 ^ e
    else (q + 1) * 2 ^ e

/-- The value a 32-bit `int` holds for the integer `n`: `n` itself when it
fits, its two's-complement wrap otherwise. -/
def wrapInt32 (n : Int) : Int := (n + 2 ^ 31) % 2 ^ 32 - 2 ^ 31

/-- The conversion `(float) z` of an `int`: `toFloat` on the magnitude. -/
def intToFloat (z : Int) : Int :=
  if 0 ≤ z then (toFloat z.toNat : Int) else -(toFloat (-z).toNat : Int)

/-- The three identical statements of the scrolling branch of
`calc_scroll_time`. `max_steps` is a `uint16_t`: it keeps the low 16 bits of
the `int` sum. The product `max_steps * EHMTXv2_SCROLL_INTERVALL` is a 32-bit
`int`, converted to the `float` `display_duration`. The result is the larger
of the duration and the requested time. -/
def scroll_duration (b : Build) (width startx pixels_ screen_time : Nat) : Nat :=
  let max_steps :=
    (b.EHMTXv2_SCROLL_COUNT * (width - startx) + b.EHMTXv2_SCROLL_COUNT * pixels_) % 65536
  let display_duration : Int :=
    intToFloat (wrapInt32 ((max_steps : Int) * (b.EHMTXv2_SCROLL_INTERVALL : Int)))
  if display_duration > (screen_time : Int) then display_duration.toNat else screen_time

/-- The function `EHMTX_queue::calc_scroll_time(std::string text, uint16_t screen_time)`. -/
def calc_scroll_time (b : Build) (env : Env) (cfg : EHMTX) (s : EHMTX_queue)
    (text : String) (screen_time : Nat) : EHMTX_queue :=
  let width : Nat := 32
  let startx : Nat := 0
  let w :=
    if s.default_font then env.get_text_bounds cfg.default_font text
    else env.get_text_bounds cfg.special_font text
  let s := { s with pixels_ := w }
  let (startx, s) :=
    match s.mode with
    | MODE_TEXT_SCREEN | MODE_RAINBOW_TEXT =>
      if b.EHMTXv2_SCROLL_SMALL_TEXT then
        (startx, { s with screen_time_ := scroll_duration b width startx s.pixels_ screen_time })
      else if s.pixels_ < 32 then
        (startx, { s with screen_time_ := screen_time })
      else
        (startx, { s with screen_time_ := scroll_duration b width startx s.pixels_ screen_time })
    | MODE_RAINBOW_ICON | MODE_BITMAP_SMALL | MODE_RAINBOW_BITMAP_SMALL
    | MODE_ICON_SCREEN | MODE_ALERT_SCREEN | MODE_ICON_PROGRESS =>
      let startx := 8
      if s.pixels_ < 23 then
        (startx, { s with screen_time_ := screen_time })
      else
        (startx, { s with screen_time_ := scroll_duration b width startx s.pixels_ screen_time })
    | MODE_ICON_TEXT_SCREEN | MODE_RAINBOW_ICON_TEXT_SCREEN =>
      if s.pixels_ < 23 then
        (startx, { s with screen_time_ := screen_time })
      else
        (startx, { s with screen_time_ := scroll_duration b width startx s.pixels_ screen_time })
    | _ => (startx, s)
  { s with scroll_reset := (width - startx) + s.pixels_ }

/-- The function `EHMTX_queue::xpos()`. The result is an `int`; the
subtraction of `scroll_step` can make it negative. -/
def xpos (b : Build) (cfg : EHMTX) (s : EHMTX_queue) : Int :=
  let width : Nat := 32
  let startx : Nat := 0
  let startx : Nat :=
    match s.mode with
    | MODE_RAINBOW_ICON | MODE_BITMAP_SMALL | MODE_RAINBOW_BITMAP_SMALL | MODE_ICON_SCREEN
    | MODE_ICON_CLOCK | MODE_ICON_DATE | MODE_ALERT_SCREEN | MODE_ICON_PROGRESS => 8
    | MODE_TEXT_SCREEN | MODE_RAINBOW_TEXT => startx
    | MODE_ICON_TEXT_SCREEN | MODE_RAINBOW_ICON_TEXT_SCREEN =>
      if s.pixels_ < 32 then 8 else startx
    | _ => startx
  let startx : Nat := if cfg.display_gauge then (startx + 2) % 256 else startx
  let width : Nat := (width - startx) % 256
  if b.EHMTXv2_USE_RTL then
    if s.pixels_ < width then
      32 - Int.tdiv ((width : Int) - (s.pixels_ : Int)) 2
    else
      (startx : Int) + (cfg.scroll_step : Int)
  else if b.EHMTXv2_SCROLL_SMALL_TEXT then
    (startx : Int) - (cfg.scroll_step : Int) + (width : Int)
  else
    if s.pixels_ < width then
      (startx : Int) + Int.tdiv ((width : Int) - (s.pixels_ : Int)) 2
    else
      (startx : Int) - (cfg.scroll_step : Int) + (width : Int)

/-- The width `calc_scroll_time` measures for a text: the `w` reported by
`get_text_bounds` in the font the slot selects. -/
def measuredWidth (env : Env) (cfg : EHMTX) (s : EHMTX_queue) (text : String) : Nat :=
  env.get_text_bounds (if s.default_font then cfg.default_font else cfg.special_font) text

/-- The visibility threshold of a scrolling-capable mode as the specification
lists it: 32 for text and rainbow text; 23 for icon, rainbow icon, alert, icon
progress, small bitmap, rainbow small bitmap, icon+text and rainbow icon+text;
none for the other modes. -/
def scrollThreshold : Mode → Option Nat
  | MODE_TEXT_SCREEN | MODE_RAINBOW_TEXT => some 32
  | MODE_ICON_SCREEN | MODE_RAINBOW_ICON | MODE_ALERT_SCREEN | MODE_ICON_PROGRESS
  | MODE_BITMAP_SMALL | MODE_RAINBOW_BITMAP_SMALL
  | MODE_ICON_TEXT_SCREEN | MODE_RAINBOW_ICON_TEXT_SCREEN => some 23
  | _ => none

/-- The left margin `calc_scroll_time` uses, as the specification lists it: 8
for icon, rainbow icon, alert, icon progress, small bitmap and rainbow small
bitmap; 0 for every other mode. -/
def scrollMargin : Mode → Nat
  | MODE_ICON_SCREEN | MODE_RAINBOW_ICON | MODE_ALERT_SCREEN | MODE_ICON_PROGRESS
  | MODE_BITMAP_SMALL | MODE_RAINBOW_BITMAP_SMALL => 8
  | _ => 0

/-- The exact scroll duration of the specification,
`scroll_cycle_count * (visible_width + pixels) * scroll_tick_interval`. -/
def requiredTime (b : Build) (m : Mode) (pixels : Nat) : Nat :=
  b.EHMTXv2_SCROLL_COUNT * ((32 - scrollMargin m) + pixels) * b.EHMTXv2_SCROLL_INTERVALL

/-- The step count `max_steps` of `calc_scroll_time` for the left margin
`startx` and a pixel width: the low 16 bits of
`count * (32 - startx) + count * pixels`. -/
def maxSteps (b : Build) (startx pixels : Nat) : Nat :=
  (b.EHMTXv2_SCROLL_COUNT * (32 - startx) + b.EHMTXv2_SCROLL_COUNT * pixels) % 65536

/-- The duration computation of `calc_scroll_time` stays within the 32-bit
`int`: neither the sum `count * (32 - startx) + count * pixels` nor the product
`max_steps * interval` reaches `2 ^ 31`. -/
def intFits (b : Build) (startx pixels : Nat) : Prop :=
  b.EHMTXv2_SCROLL_COUNT * (32 - startx) + b.EHMTXv2_SCROLL_COUNT * pixels < 2 ^ 31
    ∧ maxSteps b startx pixels * b.EHMTXv2_SCROLL_INTERVALL < 2 ^ 31

instance (b : Build) (startx pixels : Nat) : Decidable (intFits b startx pixels) := by
  unfold intFits
  infer_instance

/-- The left margin of `xpos` as the specification lists it: 8 for the
icon-bearing modes, 8 for the icon+text modes only when `pixels < 32`, 0
otherwise, plus 2 when the gauge is displayed. -/
def xposMargin (m : Mode) (pixels : Nat) (display_gauge : Bool) : Nat :=
  (match m with
    | MODE_ICON_SCREEN | MODE_RAINBOW_ICON | MODE_ALERT_SCREEN | MODE_ICON_PROGRESS
    | MODE_ICON_CLOCK | MODE_ICON_DATE | MODE_BITMAP_SMALL | MODE_RAINBOW_BITMAP_SMALL => 8
    | MODE_ICON_TEXT_SCREEN | MODE_RAINBOW_ICON_TEXT_SCREEN => if pixels < 32 then 8 else 0
    | _ => 0)
  + (if display_gauge then 2 else 0)

/-- The reference for `xpos` in the left-to-right policy: with margin `m` and
`w = 32 - m`, short text is centred at `m + (w - pixels) div 2`, long text is
at `m + w - scroll_step`. -/
def xposRef (m : Mode) (pixels scroll_step : Nat) (display_gauge : Bool) : Int :=
  let mg := xposMargin m pixels display_gauge
  let w := 32 - mg
  if pixels < w then ((mg + (w - pixels) / 2 : Nat) : Int)
  else (mg : Int) + (w : Int) - (scroll_step : Int)

/-! ## Hold extension and hue animator -/

/-- The function `EHMTX_queue::hold_slot(uint8_t _sec)`. -/
def hold_slot (s : EHMTX_queue) (_sec : Nat) : EHMTX_queue :=
  { s with endtime := s.endtime + _sec * 1000 }

/-- The difference of two `uint32_t` values, `a - b` modulo `2 ^ 32`. -/
def sub32 (a b : Nat) : Nat := (a % 2 ^ 32 + 2 ^ 32 - b % 2 ^ 32) % 2 ^ 32

/-- The element `icons[i]` of the icon table with `next_frame()` applied. -/
def advanceIcon (env : Env) (icons : List Icon) (i : Nat) : List Icon :=
  match icons.get? i with
  | some ic => icons.set i (env.next_frame ic)
  | none => icons

/-- The first statement of `update_screen`: the hue animator. -/
def update_rainbow (b : Build) (env : Env) (t : Millis) (cfg : EHMTX) : EHMTX :=
  if sub32 t.rainbow_test cfg.last_rainbow_time ≥ b.EHMTXv2_RAINBOW_INTERVALL then
    let cfg := { cfg with hue_ := cfg.hue_ + 1 }
    let cfg := if cfg.hue_ = 360 then { cfg with hue_ := 0 } else cfg
    let cfg := { cfg with rainbow_color := env.hsv_to_rgb cfg.hue_ }
    { cfg with last_rainbow_time := t.rainbow_store }
  else cfg

/-- The second statement of `update_screen`: the icon animation clock. -/
def update_anim (env : Env) (t : Millis) (cfg : EHMTX) (s : EHMTX_queue) : EHMTX :=
  if s.icon < cfg.icon_count then
    match cfg.icons.get? s.icon with
    | some ic =>
      if sub32 t.anim_test cfg.last_anim_time ≥ ic.frame_duration then
        { cfg with icons := advanceIcon env cfg.icons s.icon, last_anim_time := t.anim_store }
      else cfg
    | none => cfg
  else cfg

/-- The function `EHMTX_queue::update_screen()`: the hue animator, then the
icon animation clock. -/
def update_screen (b : Build) (env : Env) (t : Millis) (cfg : EHMTX) (s : EHMTX_queue) :
    EHMTX :=
  update_anim env t (update_rainbow b env t cfg) s

/-- A display whose fonts are 4 (default) and 6 (special) pixels per character. -/
def sampleEnv : Env :=
  ⟨fun f t => (if f.id = 0 then 4 else 6) * t.length, fun hue => ⟨hue % 256, 0, 0⟩,
    fun ic => { ic with current_frame := ic.current_frame + 1 }⟩

/-- A display whose font is 4096 pixels per character. -/
def wideEnv : Env :=
  ⟨fun _ t => 4096 * t.length, fun hue => ⟨hue % 256, 0, 0⟩, fun ic => ic⟩

/-- The default build with its default constants: scroll count 2, scroll
interval 80 ms, rainbow interval 32 ms. -/
def sampleBuild : Build := ⟨false, false, 2, 80, 32⟩

/-- A shared context with the gauge off. -/
def sampleConfig : EHMTX :=
  { is_running := true, display_gauge := false, scroll_step := 3, hue_ := 359,
    rainbow_color := ⟨0, 0, 0⟩, last_rainbow_time := 1000, last_anim_time := 0,
    next_action_time := 0, icon_count := 0, icons := [], default_font := ⟨0⟩,
    special_font := ⟨1⟩ }

/-- A text slot. -/
def sampleSlot : EHMTX_queue :=
  { endtime := 1000, last_time := 0, screen_time_ := 0, mode := MODE_TEXT_SCREEN,
    icon_name := "", icon := 0, text := "", default_font := true, progress := 0,
    sbitmap := none, text_color := ⟨255, 255, 255⟩, progressbar_color := ⟨0, 0, 0⟩,
    progressbar_back_color := ⟨0, 0, 0⟩, pixels_ := 0, scroll_reset := 0 }

/-! ## Reference for the diffusion of one fire column -/

/-- The simultaneous update of the specification for row `y` of column `x`,
computed from the cooled column `c[r] = m_heat[x + r * 32]`: the row two below
plus two copies of the row one below for rows 0 to 5, two copies of row 6 plus
row 7 for row 6, and the bottom row 7 unchanged; integer-truncated. -/
def diffuseSimultaneous (h : Heat) (x y : Nat) : Nat :=
  if y < 6 then (2 * load h (x + (y + 1) * 32) + load h (x + (y + 2) * 32)) / 3
  else if y = 6 then (2 * load h (x + 6 * 32) + load h (x + 7 * 32)) / 3
  else load h (x + 7 * 32)

/-- The maximum of the eight cells of column `x`. -/
def columnMax (h : Heat) (x : Nat) : Nat :=
  (List.range 8).foldl (fun m y => max m (load h (x + y * 32))) 0

/-- The buffer after the first `k` iterations of the diffusion loop of column `x`. -/
def diffusePrefix (c : Casts) (x : Nat) (h : Heat) (k : Nat) : Heat :=
  (List.range k).foldl (diffuseCell c x) h

/-! ## Display commands and the inputs of `draw` -/

/-- The text alignments `draw` passes to the display. -/
inductive TextAlign where
  | BASELINE_LEFT
  | BASELINE_RIGHT
  | BASELINE_CENTER
deriving DecidableEq

/-- A reading of `clock->now()`. -/
structure ESPTime where
  is_valid : Bool
  timestamp : Int
  second : Nat
  day_of_month : Nat
  day_of_week : Nat
deriving DecidableEq

/-- The variadic argument of a `printf`-style call: a string for `"%s"`, an
integer for `"%d"`. -/
inductive Arg where
  | str (s : String)
  | int (n : Int)
deriving DecidableEq

/-- A call on the display capability, with its arguments. `image` and `graph`
name the icon `icons[icon]` by its index and the one graph of the context;
`draw_day_of_week` is the day-of-week indicator drawn by the shared context,
with its argument when the call passes one. -/
inductive Cmd where
  | clear
  | fill (color : Color)
  | draw_pixel_at (x y : Int) (color : Color)
  | line (x1 y1 x2 y2 : Int) (color : Color)
  | image (x y : Int) (icon : Nat)
  | graph (x y : Int)
  | print (x y : Int) (font : Font) (color : Color) (align : TextAlign) (text : String)
  | printf (x y : Int) (font : Font) (color : Color) (align : TextAlign) (format : String)
      (arg : Arg)
  | strftime (x y : Int) (font : Font) (color : Color) (align : TextAlign) (format : String)
      (time : ESPTime)
  | draw_day_of_week (small : Option Bool)
deriving DecidableEq

/-- The further build-time switches and constants that `draw` reads through
the preprocessor: `USE_ESP8266`, `USE_GRAPH` and `USE_Fireplugin` are defined
or not; the others are macros of the missing headers. -/
structure DrawBuild where
  USE_ESP8266 : Bool
  USE_GRAPH : Bool
  USE_Fireplugin : Bool
  EHMTXv2_DEFAULT_FONT_OFFSET_X : Int
  EHMTXv2_DEFAULT_FONT_OFFSET_Y : Int
  EHMTXv2_SPECIAL_FONT_OFFSET_X : Int
  EHMTXv2_SPECIAL_FONT_OFFSET_Y : Int
  EHMTXv2_TIME_FORMAT : String
  EHMTXv2_DATE_FORMAT : String
  MAXICONS : Nat
  BLANKICON : Nat
deriving DecidableEq

/-- Modelled from the spec: the further fields of the shared render context
that `draw` reads and never writes (the class declaration is not part of the
source): the flags for the seconds pixel and the text replacement hook, the
alarm colour, the day/weekday overlay configuration and the full-screen bitmap. -/
structure DrawConfig where
  show_seconds : Bool
  replace_time_date_active : Bool
  alarm_color : Color
  info_font : Bool
  info_y_offset : Int
  info_lcolor : Color
  info_rcolor : Color
  weekday_char_count : Nat
  bitmap : List Color
deriving DecidableEq

/-- The further capabilities `draw` calls: `now k` is the reading of the
`k`-th call of `clock->now()` during the draw, `strftime` is
`ESPTime::strftime`, `replace_time_date`, `GetTextWidth` and `GetWeekdayChar`
are the methods of the shared context, and `ESPHSVColor_to_rgb h s v` is
`ESPHSVColor(h, s, v).to_rgb()`. -/
structure DrawEnv where
  now : Nat → ESPTime
  strftime : String → ESPTime → String
  replace_time_date : String → String
  GetTextWidth : Font → String → Arg → Nat
  GetWeekdayChar : Int → String
  ESPHSVColor_to_rgb : Nat → Nat → Nat → Color

/-- The colour `esphome::display::COLOR_OFF`. -/
def COLOR_OFF : Color := ⟨0, 0, 0⟩

/-- The conversion of an `int` to `uint8_t`. -/
def toU8 (z : Int) : Nat := (z % 256).toNat

/-! ## Strings of the overlay mini-language -/

/-- Whether the characters `hay` begin with the characters `needle`. -/
def beginsWith : List Char → List Char → Bool
  | [], _ => true
  | _ :: _, [] => false
  | n :: ns, c :: cs => n == c && beginsWith ns cs

/-- The search of `std::string::find`: the first position at or after `pos`
where `needle` occurs in the rest `hay` of the string, if any. -/
def findFrom (needle : List Char) : List Char → Nat → Option Nat
  | [], pos => if beginsWith needle [] then some pos else none
  | c :: cs, pos =>
    if beginsWith needle (c :: cs) then some pos else findFrom needle cs (pos + 1)

/-- The call `s.find(needle)`; `none` is `std::string::npos`. -/
def find (s needle : String) : Option Nat := findFrom needle.data s.data 0

/-- The call `s.rfind(needle, 0)`: the only candidate position is 0. -/
def rfind0 (s needle : String) : Option Nat :=
  if beginsWith needle.data s.data then some 0 else none

/-- The call `s.substr(pos)` for `pos` within the string. -/
def substr (s : String) (pos : Nat) : String := ⟨s.data.drop pos⟩

/-- The white space `std::stoi` skips: space and the control characters 9 to 13. -/
def isspace (c : Char) : Bool := c.toNat = 32 || (9 ≤ c.toNat && c.toNat ≤ 13)

/-- A decimal digit. -/
def isdigit (c : Char) : Bool := 48 ≤ c.toNat && c.toNat ≤ 57

/-- The call `std::stoi(s)`: optional white space, an optional sign, then at
least one decimal digit; the rest of the string is ignored. `none` stands for
the exception thrown when there is no digit or the value does not fit an `int`. -/
def stoi (s : String) : Option Int :=
  let cs := s.data.dropWhile isspace
  let (negative, cs) :=
    match cs with
    | [] => (false, cs)
    | c :: rest =>
      if c.toNat = 45 then (true, rest)
      else if c.toNat = 43 then (false, rest)
      else (false, cs)
  let digits := cs.takeWhile isdigit
  if digits.isEmpty then none
  else
    let value : Int := digits.foldl (fun (a : Int) c => 10 * a + ((c.toNat : Int) - 48)) 0
    let value := if negative then -value else value
    if -(2 ^ 31) ≤ value ∧ value < 2 ^ 31 then some value else none

/-! ## Day and weekday overlay -/

/-- The `switch (mode)` of the day overlay: the `uint8_t` pair
`(x_left, x_right)` it leaves, from the glyph widths. -/
def dayLayout (mode : Int) (l_width r_width : Nat) : Nat × Nat :=
  let x_left : Nat := 0
  let x_right : Nat := 9
  if mode = 1 ∨ mode = 3 ∨ mode = 4 ∨ mode = 5 then
    (toU8 (if l_width < 5 then 5 - (l_width : Int) else 0), 4)
  else if mode = 2 then
    (toU8 (if l_width < 5 then 5 - (l_width : Int) else 0), toU8 ((x_right : Int) - r_width))
  else
    (x_left, toU8 ((x_right : Int) - r_width))

/-- The `switch (mode)` of the weekday overlay with a split pair; it has no
`case 5`. -/
def weekdayLayout (mode : Int) (l_width r_width : Nat) : Nat × Nat :=
  let x_left : Nat := 0
  let x_right : Nat := 9
  if mode = 1 ∨ mode = 3 ∨ mode = 4 then
    (toU8 (if l_width < 5 then 5 - (l_width : Int) else 0), 4)
  else if mode = 2 then
    (toU8 (if l_width < 5 then 5 - (l_width : Int) else 0), toU8 ((x_right : Int) - r_width))
  else
    (x_left, toU8 ((x_right : Int) - r_width))

/-- The layout submode parsed from the icon name: 0 without a `#` or with
nothing after it, otherwise `std::stoi` of what follows the first `#`. -/
def overlayMode (icon_name : String) : Option Int :=
  match find icon_name "#" with
  | some pos =>
    let str_mode := substr icon_name (pos + 1)
    if str_mode.length ≠ 0 then stoi str_mode else some 0
  | none => some 0

/-- The day overlay: the glyph calls for the day of month `d`. -/
def dayOverlay (de : DrawEnv) (dc : DrawConfig) (info_font : Font) (yoffset : Int)
    (mode : Int) (time : ESPTime) : List Cmd :=
  let d := time.day_of_month % 256
  let l_width := de.GetTextWidth info_font "%d" (Arg.int (d / 10 % 10 : Nat)) % 256
  let r_width := de.GetTextWidth info_font "%d" (Arg.int (d % 10 : Nat)) % 256
  let (x_left, x_right) := dayLayout mode l_width r_width
  if mode = 5 ∧ d < 10 then
    let x_right := toU8 (4 - Int.tdiv ((r_width : Int) - 1) 2)
    [Cmd.printf x_right (yoffset + dc.info_y_offset) info_font dc.info_rcolor
      TextAlign.BASELINE_LEFT "%d" (Arg.int (d % 10 : Nat))]
  else
    [Cmd.printf x_left (yoffset + dc.info_y_offset - (if mode ≠ 3 then 0 else 1)) info_font
      dc.info_lcolor TextAlign.BASELINE_LEFT "%d" (Arg.int (d / 10 % 10 : Nat)),
     Cmd.printf x_right (yoffset + dc.info_y_offset - (if mode ≠ 4 then 0 else 1)) info_font
      dc.info_rcolor TextAlign.BASELINE_LEFT "%d" (Arg.int (d % 10 : Nat))]

/-- The weekday overlay: a split pair when the character table has more than
7 entries, a single glyph otherwise. -/
def weekdayOverlay (de : DrawEnv) (dc : DrawConfig) (info_font : Font) (yoffset : Int)
    (mode : Int) (time : ESPTime) : List Cmd :=
  let wd : Int := ((time.day_of_week % 256 : Nat) : Int)
  if dc.weekday_char_count > 7 then
    let left := de.GetWeekdayChar ((wd - 1) * 2)
    let right := de.GetWeekdayChar ((wd - 1) * 2 + 1)
    let l_width := de.GetTextWidth info_font "%s" (Arg.str left) % 256
    let r_width := de.GetTextWidth info_font "%s" (Arg.str right) % 256
    let (x_left, x_right) := weekdayLayout mode l_width r_width
    [Cmd.printf x_left (yoffset + dc.info_y_offset - (if mode ≠ 3 then 0 else 1)) info_font
      dc.info_lcolor TextAlign.BASELINE_LEFT "%s" (Arg.str left),
     Cmd.printf x_right (yoffset + dc.info_y_offset - (if mode ≠ 4 then 0 else 1)) info_font
      dc.info_rcolor TextAlign.BASELINE_LEFT "%s" (Arg.str right)]
  else
    let weekday := de.GetWeekdayChar (wd - 1)
    let c_width := de.GetTextWidth info_font "%s" (Arg.str weekday) % 256
    let x_left := toU8 (4 - Int.tdiv ((c_width : Int) - 1) 2)
    [Cmd.printf x_left (yoffset + dc.info_y_offset) info_font dc.info_lcolor
      TextAlign.BASELINE_LEFT "%s" (Arg.str weekday)]

/-- The overlay block of the icon+clock and icon+date modes: the glyph calls
it issues for an icon name, or `none` when `std::stoi` throws. `time` is the
reading of `clock->now()` taken for the day of month or the day of week. -/
def overlay (de : DrawEnv) (dc : DrawConfig) (info_font : Font) (yoffset : Int)
    (icon_name : String) (time : ESPTime) : Option (List Cmd) :=
  if (find icon_name "day").isSome ∨ (find icon_name "weekday").isSome then
    match overlayMode icon_name with
    | none => none
    | some mode =>
      if rfind0 icon_name "day" = some 0 then
        some (dayOverlay de dc info_font yoffset mode time)
      else
        some (weekdayOverlay de dc info_font yoffset mode time)
  else
    some []

/-! ## The renderer `EHMTX_queue::draw` -/

/-- The statement `display->print(xpos() + xoffset, yoffset, font, color_, align,
text.c_str())` of the text-bearing modes: right-aligned with `EHMTXv2_USE_RTL`,
left-aligned without. -/
def printText (b : Build) (cfg : EHMTX) (s : EHMTX_queue) (xoffset yoffset : Int)
    (font : Font) (color_ : Color) : Cmd :=
  if b.EHMTXv2_USE_RTL then
    Cmd.print (xpos b cfg s + xoffset) yoffset font color_ TextAlign.BASELINE_RIGHT s.text
  else
    Cmd.print (xpos b cfg s + xoffset) yoffset font color_ TextAlign.BASELINE_LEFT s.text

/-- The body of `case MODE_BITMAP_SCREEN`: the blit of the 32x8 bitmap. -/
def drawBitmapScreen (dc : DrawConfig) : List Cmd :=
  (List.range 32).flatMap fun (x : Nat) =>
    (List.range 8).map fun (y : Nat) =>
      Cmd.draw_pixel_at x y (dc.bitmap.getD (x + y * 32) COLOR_OFF)

/-- The body of `case MODE_GRAPH_SCREEN`. -/
def drawGraph (db : DrawBuild) (s : EHMTX_queue) : List Cmd :=
  if s.icon = db.MAXICONS then
    [Cmd.graph 0 0]
  else
    [Cmd.graph 8 0] ++ (if s.icon ≠ db.BLANKICON then [Cmd.image 0 0 s.icon] else [])

/-- The body of `case MODE_BITMAP_SMALL` and `case MODE_RAINBOW_BITMAP_SMALL`. -/
def drawBitmapSmall (b : Build) (cfg : EHMTX) (s : EHMTX_queue) (xoffset yoffset : Int)
    (font : Font) : List Cmd :=
  let color_ := if s.mode = MODE_RAINBOW_BITMAP_SMALL then cfg.rainbow_color else s.text_color
  [printText b cfg s xoffset yoffset font color_] ++
    (match s.sbitmap with
      | some sbitmap =>
        if cfg.display_gauge then
          [Cmd.line 10 0 10 7 COLOR_OFF] ++
            ((List.range 8).flatMap fun (x : Nat) =>
              (List.range 8).map fun (y : Nat) =>
                Cmd.draw_pixel_at (x + 2) y (sbitmap.getD (x + y * 8) COLOR_OFF))
        else
          [Cmd.line 8 0 8 7 COLOR_OFF] ++
            ((List.range 8).flatMap fun (x : Nat) =>
              (List.range 8).map fun (y : Nat) =>
                Cmd.draw_pixel_at x y (sbitmap.getD (x + y * 8) COLOR_OFF))
      | none => [])

/-- The bodies of `case MODE_RAINBOW_CLOCK` / `case MODE_CLOCK` and of
`case MODE_RAINBOW_DATE` / `case MODE_DATE`, which differ in the rainbow mode
compared with, the format macro and the placeholder. The calls of
`clock->now()` are numbered 0 (validity), 1 (the unused `ts`), 2 (the text),
3 (the second). -/
def drawClock (de : DrawEnv) (dc : DrawConfig) (cfg : EHMTX) (s : EHMTX_queue)
    (xoffset yoffset : Int) (font : Font) (rainbow : Mode) (format placeholder : String) :
    List Cmd :=
  if (de.now 0).is_valid then
    let color_ := if s.mode = rainbow then cfg.rainbow_color else s.text_color
    (if dc.replace_time_date_active then
        let time_new := de.strftime format (de.now 2)
        let time_new := de.replace_time_date time_new
        [Cmd.printf (xoffset + 15) yoffset font color_ TextAlign.BASELINE_CENTER "%s"
          (Arg.str time_new)]
      else
        [Cmd.strftime (xoffset + 15) yoffset font color_ TextAlign.BASELINE_CENTER format
          (de.now 2)]) ++
      (if (de.now 3).second % 256 % 2 = 0 ∧ dc.show_seconds then
          [Cmd.draw_pixel_at 0 0 color_]
        else []) ++
      (if s.mode ≠ rainbow then [Cmd.draw_day_of_week none] else [])
  else
    [Cmd.print (15 + xoffset) yoffset font dc.alarm_color TextAlign.BASELINE_CENTER placeholder]

/-- The body of `case MODE_ICON_CLOCK` / `case MODE_ICON_DATE`; `none` when
`std::stoi` throws in the overlay block. -/
def drawIconClock (db : DrawBuild) (de : DrawEnv) (dc : DrawConfig) (s : EHMTX_queue)
    (xoffset yoffset : Int) (font info_font : Font) : Option (List Cmd) :=
  if (de.now 0).is_valid then
    let color_ := s.text_color
    let text :=
      if s.mode = MODE_ICON_CLOCK then
        if dc.replace_time_date_active then
          let time_new := de.strftime db.EHMTXv2_TIME_FORMAT (de.now 2)
          let time_new := de.replace_time_date time_new
          [Cmd.printf (xoffset + 19) yoffset font color_ TextAlign.BASELINE_CENTER "%s"
            (Arg.str time_new)]
        else
          [Cmd.strftime (xoffset + 19) yoffset font color_ TextAlign.BASELINE_CENTER
            db.EHMTXv2_TIME_FORMAT (de.now 2)]
      else
        if dc.replace_time_date_active then
          let time_new := de.strftime db.EHMTXv2_DATE_FORMAT (de.now 2)
          let time_new := de.replace_time_date time_new
          [Cmd.printf (xoffset + 19) yoffset font color_ TextAlign.BASELINE_CENTER "%s"
            (Arg.str time_new)]
        else
          [Cmd.strftime (xoffset + 19) yoffset font color_ TextAlign.BASELINE_CENTER
            db.EHMTXv2_DATE_FORMAT (de.now 2)]
    let icon := if s.icon ≠ db.BLANKICON then [Cmd.image 0 0 s.icon] else []
    match overlay de dc info_font yoffset s.icon_name (de.now 3) with
    | none => none
    | some glyphs => some (text ++ icon ++ [Cmd.draw_day_of_week (some true)] ++ glyphs)
  else
    some [Cmd.print (xoffset + 19) yoffset font dc.alarm_color TextAlign.BASELINE_CENTER "!t!"]

/-- The body of `case MODE_ICON_SCREEN`, `MODE_ALERT_SCREEN`, `MODE_RAINBOW_ICON`
and `MODE_ICON_PROGRESS`. -/
def drawIcon (b : Build) (db : DrawBuild) (de : DrawEnv) (cfg : EHMTX) (s : EHMTX_queue)
    (xoffset yoffset : Int) (font : Font) : List Cmd :=
  let color_ := if s.mode = MODE_RAINBOW_ICON then cfg.rainbow_color else s.text_color
  [printText b cfg s xoffset yoffset font color_] ++
    (if s.mode = MODE_ICON_PROGRESS then
      [Cmd.line 8 0 8 7 COLOR_OFF] ++
        (if s.icon ≠ db.BLANKICON then [Cmd.image 0 0 s.icon] else []) ++
        (if s.progress ≠ 0 then
          if s.progressbar_color = COLOR_OFF then
            let color_ :=
              de.ESPHSVColor_to_rgb
                (toU8 (Int.tdiv (s.progress * 120) 100 + (if s.progress < 0 then 120 else 0)))
                255 240
            [Cmd.line 9 7 (9 + Int.tdiv ((s.progress.natAbs : Int) * 22) 100) 7 color_]
          else
            let color_ := s.progressbar_color
            [Cmd.line 9 7 31 7 s.progressbar_back_color,
             Cmd.line 9 7 (9 + Int.tdiv ((s.progress.natAbs : Int) * 22) 100) 7 color_]
        else [])
    else if cfg.display_gauge then
      (if s.icon ≠ db.BLANKICON then [Cmd.image 2 0 s.icon] else []) ++
        [Cmd.line 10 0 10 7 COLOR_OFF]
    else
      [Cmd.line 8 0 8 7 COLOR_OFF] ++
        (if s.icon ≠ db.BLANKICON then [Cmd.image 0 0 s.icon] else []))

/-- The body of `case MODE_ICON_TEXT_SCREEN` / `case MODE_RAINBOW_ICON_TEXT_SCREEN`.
The colour is selected by comparing the mode with `MODE_RAINBOW_TEXT`, as in
the source. -/
def drawIconText (b : Build) (db : DrawBuild) (cfg : EHMTX) (s : EHMTX_queue)
    (xoffset yoffset : Int) (font : Font) : List Cmd :=
  let color_ := if s.mode = MODE_RAINBOW_TEXT then cfg.rainbow_color else s.text_color
  [printText b cfg s xoffset yoffset font color_] ++
    (if s.icon ≠ db.BLANKICON then
      let x : Int := 0
      let x : Int :=
        if s.pixels_ > 23 then
          if xpos b cfg s > 23 then 24 - xpos b cfg s
          else if xpos b cfg s < 9 then xpos b cfg s - 9
          else x
        else x
      [Cmd.line (x + 8) 0 (x + 8) 7 COLOR_OFF, Cmd.image x 0 s.icon]
    else [])

/-- The body of `case MODE_TEXT_SCREEN` / `case MODE_RAINBOW_TEXT`. -/
def drawText (b : Build) (cfg : EHMTX) (s : EHMTX_queue) (xoffset yoffset : Int)
    (font : Font) : List Cmd :=
  let color_ := if s.mode = MODE_RAINBOW_TEXT then cfg.rainbow_color else s.text_color
  [printText b cfg s xoffset yoffset font color_]

/-- The body of `case MODE_FIRE`: for each column the steps 1 to 3 on the
heat buffer, then the eight pixels of step 4. -/
def drawFire (d : Draws) (heat : Heat) : Heat × List Cmd :=
  (List.range 32).foldl
    (fun (acc : Heat × List Cmd) x =>
      let h := fireColumn machine d acc.1 x
      (h, acc.2 ++ (firePixels h x).map fun p => Cmd.draw_pixel_at p.1 p.2.1 p.2.2))
    (heat, [])

/-- The `default:` case of the switch: the retire-slot signal. -/
def drawDefault (cfg : EHMTX) (heat : Heat) : EHMTX × Heat × List Cmd :=
  ({ cfg with next_action_time := 0 }, heat, [])

/-- The `switch (this->mode)` of `draw`: the shared context, the heat buffer
and the display calls after it, or `none` when `std::stoi` throws. A case
label inside `#ifdef USE_GRAPH` or `#ifdef USE_Fireplugin` exists only in such a
build; the bodies inside `#ifndef USE_ESP8266` are empty on an ESP8266. -/
def drawSwitch (b : Build) (db : DrawBuild) (de : DrawEnv) (dc : DrawConfig) (d : Draws)
    (cfg : EHMTX) (heat : Heat) (s : EHMTX_queue) (xoffset yoffset : Int)
    (font info_font : Font) : Option (EHMTX × Heat × List Cmd) :=
  match s.mode with
  | MODE_BLANK => some (cfg, heat, [])
  | MODE_COLOR => some (cfg, heat, [Cmd.fill s.text_color])
  | MODE_BITMAP_SCREEN =>
    some (cfg, heat, if db.USE_ESP8266 then [] else drawBitmapScreen dc)
  | MODE_GRAPH_SCREEN =>
    if db.USE_GRAPH then some (cfg, heat, drawGraph db s) else some (drawDefault cfg heat)
  | MODE_BITMAP_SMALL | MODE_RAINBOW_BITMAP_SMALL =>
    some (cfg, heat, if db.USE_ESP8266 then [] else drawBitmapSmall b cfg s xoffset yoffset font)
  | MODE_RAINBOW_CLOCK | MODE_CLOCK =>
    some (cfg, heat,
      drawClock de dc cfg s xoffset yoffset font MODE_RAINBOW_CLOCK db.EHMTXv2_TIME_FORMAT "!t!")
  | MODE_RAINBOW_DATE | MODE_DATE =>
    some (cfg, heat,
      drawClock de dc cfg s xoffset yoffset font MODE_RAINBOW_DATE db.EHMTXv2_DATE_FORMAT "!d!")
  | MODE_FULL_SCREEN => some (cfg, heat, [Cmd.image 0 0 s.icon])
  | MODE_ICON_CLOCK | MODE_ICON_DATE =>
    match drawIconClock db de dc s xoffset yoffset font info_font with
    | none => none
    | some cmds => some (cfg, heat, cmds)
  | MODE_ICON_SCREEN | MODE_ALERT_SCREEN | MODE_RAINBOW_ICON | MODE_ICON_PROGRESS =>
    some (cfg, heat, drawIcon b db de cfg s xoffset yoffset font)
  | MODE_ICON_TEXT_SCREEN | MODE_RAINBOW_ICON_TEXT_SCREEN =>
    some (cfg, heat, drawIconText b db cfg s xoffset yoffset font)
  | MODE_TEXT_SCREEN | MODE_RAINBOW_TEXT =>
    some (cfg, heat, drawText b cfg s xoffset yoffset font)
  | MODE_FIRE =>
    if db.USE_Fireplugin then
      some (cfg, (drawFire d heat).1, (drawFire d heat).2)
    else some (drawDefault cfg heat)
  | MODE_EMPTY => some (drawDefault cfg heat)

/-- The function `EHMTX_queue::draw()`: the shared context, the heat buffer and
the display calls after the call, or `none` when `std::stoi` throws. `t` are
the readings of `millis()` and `d` the outcomes of `random` during the call. -/
def draw (b : Build) (db : DrawBuild) (env : Env) (de : DrawEnv) (dc : DrawConfig)
    (t : Millis) (d : Draws) (cfg : EHMTX) (heat : Heat) (s : EHMTX_queue) :
    Option (EHMTX × Heat × List Cmd) :=
  let font := if s.default_font then cfg.default_font else cfg.special_font
  let info_font := if dc.info_font then cfg.default_font else cfg.special_font
  let yoffset :=
    if s.default_font then db.EHMTXv2_DEFAULT_FONT_OFFSET_Y
    else db.EHMTXv2_SPECIAL_FONT_OFFSET_Y
  let xoffset :=
    if s.default_font then db.EHMTXv2_DEFAULT_FONT_OFFSET_X
    else db.EHMTXv2_SPECIAL_FONT_OFFSET_X
  if cfg.is_running then
    match drawSwitch b db de dc d cfg heat s xoffset yoffset font info_font with
    | none => none
    | some (cfg, heat, cmds) => some (update_screen b env t cfg s, heat, Cmd.clear :: cmds)
  else
    some (cfg, heat, [])

/-- Whether the switch of `draw` has a case label for the mode in this build. -/
def drawHandles (db : DrawBuild) : Mode → Bool
  | MODE_EMPTY => false
  | MODE_GRAPH_SCREEN => db.USE_GRAPH
  | MODE_FIRE => db.USE_Fireplugin
  | _ => true

/-- The colours of the text calls (`print`, `printf`, `strftime`) among the
display calls, in order. -/
def textColors : List Cmd → List Color
  | [] => []
  | Cmd.print _ _ _ color _ _ :: rest => color :: textColors rest
  | Cmd.printf _ _ _ color _ _ _ :: rest => color :: textColors rest
  | Cmd.strftime _ _ _ color _ _ _ :: rest => color :: textColors rest
  | _ :: rest => textColors rest

/-- A build with the fire plugin and without graphs. -/
def sampleDrawBuild : DrawBuild :=
  { USE_ESP8266 := false, USE_GRAPH := false, USE_Fireplugin := true,
    EHMTXv2_DEFAULT_FONT_OFFSET_X := 1, EHMTXv2_DEFAULT_FONT_OFFSET_Y := 6,
    EHMTXv2_SPECIAL_FONT_OFFSET_X := 1, EHMTXv2_SPECIAL_FONT_OFFSET_Y := 7,
    EHMTXv2_TIME_FORMAT := "%H:%M", EHMTXv2_DATE_FORMAT := "%d.%m.", MAXICONS := 90,
    BLANKICON := 99 }

/-- A clock showing a valid time on the 17th, a Tuesday; glyphs 4 pixels wide. -/
def sampleDrawEnv : DrawEnv :=
  { now := fun _ => ⟨true, 1700000000, 30, 17, 3⟩,
    strftime := fun f _ => f,
    replace_time_date := fun text => text,
    GetTextWidth := fun _ _ a =>
      match a with
      | Arg.int _ => 4
      | Arg.str text => 4 * text.length,
    GetWeekdayChar := fun i => if i % 2 = 0 then "T" else "u",
    ESPHSVColor_to_rgb := fun h _ v => ⟨h, v, 0⟩ }

/-- An overlay configuration with a 14-entry weekday table. -/
def sampleDrawConfig : DrawConfig :=
  { show_seconds := true, replace_time_date_active := false, alarm_color := ⟨255, 0, 0⟩,
    info_font := true, info_y_offset := 0, info_lcolor := ⟨1, 2, 3⟩, info_rcolor := ⟨4, 5, 6⟩,
    weekday_char_count := 14, bitmap := [] }

/-- The readings of `millis()` of a sample call. -/
def sampleMillis : Millis := ⟨5000, 5001, 5001, 5002⟩

/-- The display calls of a `draw`, when it returns. -/
def drawnCmds (r : Option (EHMTX × Heat × List Cmd)) : Option (List Cmd) :=
  r.map fun x => x.2.2

/-- The colours of the text calls of a `draw`, when it returns. -/
def drawnTextColors (r : Option (EHMTX × Heat × List Cmd)) : Option (List Color) :=
  r.map fun x => textColors x.2.2

/-- A rainbow icon+text slot with white text. -/
def rainbowIconTextSlot : EHMTX_queue :=
  { sampleSlot with mode := MODE_RAINBOW_ICON_TEXT_SCREEN, text := "hello", icon := 2 }

/-- An icon+clock slot whose icon is named `sunday`. -/
def sundaySlot : EHMTX_queue :=
  { sampleSlot with mode := MODE_ICON_CLOCK, icon_name := "sunday", icon := 2 }

/-- A slot whose mode is `MODE_EMPTY`. -/
def emptySlot : EHMTX_queue := { sampleSlot with mode := MODE_EMPTY }

/-- The sample context with the gauge displayed. -/
def gaugeConfig : EHMTX := { sampleConfig with display_gauge := true }

/-- The sample text slot in the special font, 6 pixels per character. -/
def specialSlot : EHMTX_queue := { sampleSlot with default_font := false }

end EHMTXv2

/-! # Properties -/

namespace EHMTXv2

/-! ## Heat-colour ramp -/

/-- C1: for every temperature in 0..255, `heatColor` equals the three-band
reference built from `t192 = t * 191 / 255` and `ramp = (t192 AND 0x3F) * 4`;
the ramp is at most 252, and neither the 32-bit product, the 8-bit `t192` nor
the 8-bit shifted ramp overflows. -/
theorem heatColor_eq_three_band_reference :
    ∀ t, t < 256 → (heatColor t = heatColorRef t ∧ rampRef t ≤ 252 ∧ t * 191 < 2 ^ 32
      ∧ scaled192 t < 256 ∧ (scaled192 t &&& 0x3f) <<< 2 < 256) := by
  set_option maxRecDepth 100000 in decide

theorem heatColor_eq_three_band_reference_witness :
    200 < 256 ∧ (heatColor 200 = heatColorRef 200 ∧ rampRef 200 ≤ 252 ∧ 200 * 191 < 2 ^ 32
      ∧ scaled192 200 < 256 ∧ (scaled192 200 &&& 0x3f) <<< 2 < 256) :=
  ⟨by decide, heatColor_eq_three_band_reference 200 (by decide)⟩

/-- C2 as stated fails: 128 does not fall in the coolest band, `heatColor 128`
is not `(124, 0, 0)` and `heatColor 255` is not `(255, 255, 124)`. -/
theorem heatColor_worked_values_as_stated_fail :
    band 128 ≠ (false, false) ∧ heatColor 128 ≠ ⟨124, 0, 0⟩
      ∧ heatColor 255 ≠ ⟨255, 255, 124⟩ := by
  decide

/-- C2 amended: `heatColor 0 = (0, 0, 0)`; 128 scales to 95, whose bit 6 is
set, so it falls in the middle band and `heatColor 128 = (255, 124, 0)`; 255
scales to 191 and `heatColor 255 = (255, 255, 252)`. -/
theorem heatColor_worked_values :
    heatColor 0 = ⟨0, 0, 0⟩
      ∧ (scaled192 128 = 95 ∧ band 128 = (false, true) ∧ heatColor 128 = ⟨255, 124, 0⟩)
      ∧ (scaled192 255 = 191 ∧ band 255 = (true, false) ∧ heatColor 255 = ⟨255, 255, 252⟩) := by
  decide

/-- Per temperature: the scaled value is below 192, the band is its quotient
by 64, the ramp channel is four times its remainder, and the other two
channels depend on the band only. -/
theorem heatColor_band_facts :
    ∀ t, t < 256 → (scaled192 t < 192
      ∧ band t = (decide (scaled192 t / 64 = 2), decide (scaled192 t / 64 = 1))
      ∧ rampChannel t (heatColor t) = scaled192 t % 64 * 4
      ∧ fixedChannels t (heatColor t) =
          (if scaled192 t / 64 = 0 then (0, 0)
           else if scaled192 t / 64 = 1 then (255, 0) else (255, 255))) := by
  set_option maxRecDepth 100000 in decide

theorem scaled192_mono {t1 t2 : Nat} (h : t1 ≤ t2) : scaled192 t1 ≤ scaled192 t2 := by
  unfold scaled192
  exact Nat.div_le_div_right (Nat.mul_le_mul_right 191 h)

/-- C3: for temperatures `t1 ≤ t2` in 0..255 whose scaled values lie in the
same band, the ramp channel of `heatColor t1` is at most that of
`heatColor t2` and the other two channels are equal. -/
theorem heatColor_ramp_monotone_in_band (t1 t2 : Nat) (h12 : t1 ≤ t2) (h2 : t2 < 256)
    (hband : band t1 = band t2) :
    rampChannel t1 (heatColor t1) ≤ rampChannel t2 (heatColor t2)
      ∧ fixedChannels t1 (heatColor t1) = fixedChannels t2 (heatColor t2) := by
  obtain ⟨ha, hb1, hr1, hf1⟩ := heatColor_band_facts t1 (by omega)
  obtain ⟨hc, hb2, hr2, hf2⟩ := heatColor_band_facts t2 h2
  have hs := scaled192_mono h12
  rw [hb1, hb2] at hband
  simp only [Prod.mk.injEq, decide_eq_decide] at hband
  have hq : scaled192 t1 / 64 = scaled192 t2 / 64 := by omega
  rw [hr1, hr2, hf1, hf2, hq]
  refine ⟨?_, rfl⟩
  omega

theorem heatColor_ramp_monotone_in_band_witness :
    (70 ≤ 80 ∧ 80 < 256 ∧ band 70 = band 80)
      ∧ (rampChannel 70 (heatColor 70) ≤ rampChannel 80 (heatColor 80)
        ∧ fixedChannels 70 (heatColor 70) = fixedChannels 80 (heatColor 80)) :=
  ⟨by decide, heatColor_ramp_monotone_in_band 70 80 (by decide) (by decide) (by decide)⟩

/-! ## Heat simulator -/

/-- Two loop bodies that agree on every state satisfying an invariant the
second one preserves give the same loop result, and it satisfies the invariant. -/
theorem foldl_agree {α β : Type} (P : α → Prop) (Q : β → Prop) (f g : α → β → α)
    (hstep : ∀ a b, P a → Q b → f a b = g a b ∧ P (g a b)) :
    ∀ (l : List β) (a : α), P a → (∀ b ∈ l, Q b) →
      l.foldl f a = l.foldl g a ∧ P (l.foldl g a) := by
  intro l
  induction l with
  | nil => intro a ha _; exact ⟨rfl, ha⟩
  | cons b l ih =>
    intro a ha hl
    have hb := hstep a b ha (hl b (List.mem_cons_self b l))
    simp only [List.foldl_cons]
    rw [hb.1]
    exact ih (g a b) hb.2 (fun c hc => hl c (List.mem_cons_of_mem b hc))

theorem load_store_same (h : Heat) (i v : Nat) (hi : i < h.length) :
    load (store h i v) i = v := by
  simp [load, store, List.getD_eq_getElem?_getD, hi]

theorem load_store_other (h : Heat) (i v j : Nat) (hj : j ≠ i) :
    load (store h i v) j = load h j := by
  simp [load, store, List.getD_eq_getElem?_getD, List.getElem?_set_ne (Ne.symm hj)]

theorem store_inRange {h : Heat} (hh : InRange h) (i : Nat) {v : Nat} (hv : v ≤ 255) :
    InRange (store h i v) := by
  refine ⟨by simp [store, hh.1], ?_⟩
  intro j hj
  by_cases hji : j = i
  · rw [hji, load_store_same h i v (by rw [hh.1]; omega)]
    exact hv
  · rw [load_store_other h i v j hji]
    exact hh.2 j hj

theorem coolCell_agree (d : Draws) (x : Nat) (hx : x < 32)
    (hd : ∀ y, y < 8 → d.cool x y < COOLING * 10 / 8) (h : Heat) (y : Nat)
    (hh : InRange h) (hy : y < 8) :
    coolCell machine d x h y = coolCell unbounded d x h y
      ∧ InRange (coolCell unbounded d x h y) := by
  have hc : d.cool x y < 75 := hd y hy
  have hcell : load h (x + y * 32) ≤ 255 := hh.2 _ (by unfold m_heatSize; omega)
  have e1 : (d.cool x y + 2) % 256 = d.cool x y + 2 := Nat.mod_eq_of_lt (by omega)
  have e2 : (load h (x + y * 32) - (d.cool x y + 2)) % 256
      = load h (x + y * 32) - (d.cool x y + 2) := Nat.mod_eq_of_lt (by omega)
  constructor
  · simp only [coolCell, machine, unbounded, e1, e2]
  · simp only [coolCell, unbounded]
    split
    · exact store_inRange hh _ (by omega)
    · exact store_inRange hh _ (by omega)

theorem diffuse_value (a b : Nat) (ha : a ≤ 255) (hb : b ≤ 255) :
    ((((0 + a) % 65536 + a) % 65536 + b) % 65536 / 3 % 65536 % 256) = (0 + a + a + b) / 3
      ∧ (0 + a + a + b) / 3 ≤ 255 := by
  have e1 : (0 + a) % 65536 = 0 + a := Nat.mod_eq_of_lt (by omega)
  have e2 : (0 + a + a) % 65536 = 0 + a + a := Nat.mod_eq_of_lt (by omega)
  have e3 : (0 + a + a + b) % 65536 = 0 + a + a + b := Nat.mod_eq_of_lt (by omega)
  have hq : (0 + a + a + b) / 3 ≤ 255 := by omega
  have e4 : (0 + a + a + b) / 3 % 65536 = (0 + a + a + b) / 3 := Nat.mod_eq_of_lt (by omega)
  have e5 : (0 + a + a + b) / 3 % 256 = (0 + a + a + b) / 3 := Nat.mod_eq_of_lt (by omega)
  rw [e1, e2, e3, e4, e5]
  exact ⟨rfl, hq⟩

theorem diffuseCell_agree (x : Nat) (hx : x < 32) (h : Heat) (y : Nat)
    (hh : InRange h) (hy : y < 7) :
    diffuseCell machine x h y = diffuseCell unbounded x h y
      ∧ InRange (diffuseCell unbounded x h y) := by
  have h0 : load h (x + (y + 0) * 32) ≤ 255 := hh.2 _ (by unfold m_heatSize; omega)
  have h1 : load h (x + (y + 1) * 32) ≤ 255 := hh.2 _ (by unfold m_heatSize; omega)
  by_cases hy6 : 8 - 2 > y
  · have h2 : load h (x + (y + 2) * 32) ≤ 255 := hh.2 _ (by unfold m_heatSize; omega)
    constructor
    · simp only [diffuseCell, machine, unbounded, if_pos hy6]
      exact congrArg (store h (x + y * 32)) (diffuse_value _ _ h1 h2).1
    · simp only [diffuseCell, unbounded, if_pos hy6]
      exact store_inRange hh _ (diffuse_value _ _ h1 h2).2
  · constructor
    · simp only [diffuseCell, machine, unbounded, if_neg hy6]
      exact congrArg (store h (x + y * 32)) (diffuse_value _ _ h0 h1).1
    · simp only [diffuseCell, unbounded, if_neg hy6]
      exact store_inRange hh _ (diffuse_value _ _ h0 h1).2

theorem sparkColumn_agree (d : Draws) (x : Nat) (hx : x < 32)
    (hd : 160 ≤ d.amount x ∧ d.amount x < 255) (h : Heat) (hh : InRange h) :
    sparkColumn machine d x h = sparkColumn unbounded d x h
      ∧ InRange (sparkColumn unbounded d x h) := by
  have hcell : load h (x + (8 - 1) * 32) ≤ 255 := hh.2 _ (by unfold m_heatSize; omega)
  have e1 : d.amount x % 256 = d.amount x := Nat.mod_eq_of_lt (by omega)
  have e2 : (load h (x + (8 - 1) * 32) + d.amount x) % 65536
      = load h (x + (8 - 1) * 32) + d.amount x := Nat.mod_eq_of_lt (by omega)
  constructor
  · simp only [sparkColumn, machine, unbounded, e1, e2]
    split
    · split
      · rfl
      · exact congrArg (store h (x + (8 - 1) * 32)) (by omega)
    · rfl
  · simp only [sparkColumn, unbounded]
    split
    · split
      · exact store_inRange hh _ (by omega)
      · exact store_inRange hh _ (by omega)
    · exact hh

theorem coolColumn_agree (d : Draws) (x : Nat) (hx : x < 32)
    (hd : ∀ y, y < 8 → d.cool x y < COOLING * 10 / 8) (h : Heat) (hh : InRange h) :
    coolColumn machine d x h = coolColumn unbounded d x h
      ∧ InRange (coolColumn unbounded d x h) :=
  foldl_agree InRange (fun y => y < 8) _ _ (coolCell_agree d x hx hd) (List.range 8) h hh
    (fun _ hy => List.mem_range.mp hy)

theorem diffuseColumn_agree (x : Nat) (hx : x < 32) (h : Heat) (hh : InRange h) :
    diffuseColumn machine x h = diffuseColumn unbounded x h
      ∧ InRange (diffuseColumn unbounded x h) :=
  foldl_agree InRange (fun y => y < 7) _ _ (diffuseCell_agree x hx) (List.range (8 - 1)) h hh
    (fun _ hy => List.mem_range.mp hy)

theorem fireColumn_agree (d : Draws) (hd : d.valid) (h : Heat) (x : Nat)
    (hh : InRange h) (hx : x < 32) :
    fireColumn machine d h x = fireColumn unbounded d h x
      ∧ InRange (fireColumn unbounded d h x) := by
  obtain ⟨hcool, _, hamount⟩ := hd x hx
  obtain ⟨e1, r1⟩ := coolColumn_agree d x hx hcool h hh
  obtain ⟨e2, r2⟩ := diffuseColumn_agree x hx _ r1
  obtain ⟨e3, r3⟩ := sparkColumn_agree d x hx hamount _ r2
  unfold fireColumn
  rw [e1, e2, e3]
  exact ⟨rfl, r3⟩

theorem fireStep_agree (d : Draws) (hd : d.valid) (h : Heat) (hh : InRange h) :
    fireStep machine h d = fireStep unbounded h d ∧ InRange (fireStep unbounded h d) :=
  foldl_agree InRange (fun x => x < 32) _ _ (fireColumn_agree d hd) (List.range 32) h hh
    (fun _ hx => List.mem_range.mp hx)

theorem fireRun_agree (ds : List Draws) (hds : ∀ e ∈ ds, e.valid) (h : Heat) (hh : InRange h) :
    fireRun machine h ds = fireRun unbounded h ds ∧ InRange (fireRun unbounded h ds) :=
  foldl_agree InRange Draws.valid _ _ (fun a e ha he => fireStep_agree e he a ha) ds h hh hds

theorem zeroHeat_inRange : InRange zeroHeat := by
  set_option maxRecDepth 100000 in decide

/-- C4: on a grid with cells in `[0, 255]` and draws in their ranges, one fire
step with the 8- and 16-bit variables of the code equals the same step over
unbounded integers and leaves every cell in `[0, 255]`; cooling a cell gives
`max 0 (heat - amount)` with `amount = draw + 2`, a spark gives
`min 255 (heat + amount)`; and any run of steps from the all-zero grid never
wraps and keeps every cell in `[0, 255]`. -/
theorem fire_heat_stays_in_range (h : Heat) (d : Draws) (ds : List Draws)
    (hh : InRange h) (hd : d.valid) (hds : ∀ e ∈ ds, e.valid) :
    (fireStep machine h d = fireStep unbounded h d ∧ InRange (fireStep unbounded h d))
      ∧ (∀ x y, x < 32 → y < 8 →
          ((load (coolCell machine d x h y) (x + y * 32) : Nat) : Int)
            = max 0 ((load h (x + y * 32) : Int) - ((d.cool x y : Int) + 2)))
      ∧ (∀ x, x < 32 → d.spark x < SPARKING →
          load (sparkColumn machine d x h) (x + 7 * 32)
            = min 255 (load h (x + 7 * 32) + d.amount x))
      ∧ (fireRun machine zeroHeat ds = fireRun unbounded zeroHeat ds
          ∧ InRange (fireRun unbounded zeroHeat ds)) := by
  refine ⟨fireStep_agree d hd h hh, ?_, ?_, fireRun_agree ds hds zeroHeat zeroHeat_inRange⟩
  · intro x y hx hy
    have hc : d.cool x y < 75 := (hd x hx).1 y hy
    have hpos : x + y * 32 < h.length := by rw [hh.1]; unfold m_heatSize; omega
    have hcell : load h (x + y * 32) ≤ 255 := hh.2 _ (by unfold m_heatSize; omega)
    have e1 : (d.cool x y + 2) % 256 = d.cool x y + 2 := Nat.mod_eq_of_lt (by omega)
    simp only [coolCell, machine, e1]
    split
    · rw [load_store_same h _ _ hpos]
      omega
    · rw [load_store_same h _ _ hpos]
      omega
  · intro x hx hs
    obtain ⟨_, _, ha1, ha2⟩ := hd x hx
    have hpos : x + 7 * 32 < h.length := by rw [hh.1]; unfold m_heatSize; omega
    have hcell : load h (x + 7 * 32) ≤ 255 := hh.2 _ (by unfold m_heatSize; omega)
    have e1 : d.amount x % 256 = d.amount x := Nat.mod_eq_of_lt (by omega)
    have e2 : (load h (x + 7 * 32) + d.amount x) % 65536 = load h (x + 7 * 32) + d.amount x :=
      Nat.mod_eq_of_lt (by omega)
    have e7 : x + (8 - 1) * 32 = x + 7 * 32 := rfl
    simp only [sparkColumn, machine, if_pos hs, e7, e1, e2]
    split
    · rw [load_store_same h _ _ hpos]
      omega
    · rw [load_store_same h _ _ hpos]
      omega

theorem fire_heat_stays_in_range_witness :
    (InRange sampleHeat ∧ sampleDraws.valid ∧ ∀ e ∈ [sampleDraws, sampleDraws], e.valid)
      ∧ ((fireStep machine sampleHeat sampleDraws = fireStep unbounded sampleHeat sampleDraws
            ∧ InRange (fireStep unbounded sampleHeat sampleDraws))
        ∧ (∀ x y, x < 32 → y < 8 →
            ((load (coolCell machine sampleDraws x sampleHeat y) (x + y * 32) : Nat) : Int)
              = max 0 ((load sampleHeat (x + y * 32) : Int) - ((sampleDraws.cool x y : Int) + 2)))
        ∧ (∀ x, x < 32 → sampleDraws.spark x < SPARKING →
            load (sparkColumn machine sampleDraws x sampleHeat) (x + 7 * 32)
              = min 255 (load sampleHeat (x + 7 * 32) + sampleDraws.amount x))
        ∧ (fireRun machine zeroHeat [sampleDraws, sampleDraws]
              = fireRun unbounded zeroHeat [sampleDraws, sampleDraws]
            ∧ InRange (fireRun unbounded zeroHeat [sampleDraws, sampleDraws]))) :=
  have hh : InRange sampleHeat := by set_option maxRecDepth 100000 in decide
  have hd : sampleDraws.valid := by set_option maxRecDepth 100000 in decide
  have hds : ∀ e ∈ [sampleDraws, sampleDraws], e.valid := by
    intro e he
    simp only [List.mem_cons, List.mem_singleton, List.not_mem_nil, or_false, or_self] at he
    rw [he]
    exact hd
  ⟨⟨hh, hd, hds⟩, fire_heat_stays_in_range sampleHeat sampleDraws [sampleDraws, sampleDraws] hh hd hds⟩

/-! ## Scroll engine -/

theorem calc_scroll_time_pixels (b : Build) (env : Env) (cfg : EHMTX) (s : EHMTX_queue)
    (text : String) (screen_time : Nat) :
    (calc_scroll_time b env cfg s text screen_time).pixels_ = measuredWidth env cfg s text := by
  unfold calc_scroll_time measuredWidth
  cases hm : s.mode <;> cases hf : s.default_font <;> simp only [hm] <;>
    repeat (first | rfl | split)

/-- C5: with small-text scrolling not enabled, for every scrolling-capable
mode and every requested duration, a text whose measured width is below the
threshold of the mode (32 or 23) leaves `screen_time_` equal to the requested
value. -/
theorem calc_scroll_time_fits_keeps_requested (b : Build) (env : Env) (cfg : EHMTX)
    (s : EHMTX_queue) (text : String) (screen_time th : Nat)
    (hb : b.EHMTXv2_SCROLL_SMALL_TEXT = false) (hm : scrollThreshold s.mode = some th)
    (hw : measuredWidth env cfg s text < th) :
    (calc_scroll_time b env cfg s text screen_time).screen_time_ = screen_time := by
  unfold measuredWidth at hw
  unfold calc_scroll_time
  cases hmode : s.mode <;> rw [hmode] at hm <;> simp only [scrollThreshold] at hm <;>
    cases hm <;>
    cases hf : s.default_font <;> simp only [hf, Bool.false_eq_true, if_false, if_true] at hw <;>
    simp [hb, hw]

theorem calc_scroll_time_fits_keeps_requested_witness :
    (sampleBuild.EHMTXv2_SCROLL_SMALL_TEXT = false ∧ scrollThreshold sampleSlot.mode = some 32
        ∧ measuredWidth sampleEnv sampleConfig sampleSlot "1234567" < 32)
      ∧ (calc_scroll_time sampleBuild sampleEnv sampleConfig sampleSlot "1234567" 20).screen_time_
          = 20 :=
  ⟨by decide, calc_scroll_time_fits_keeps_requested sampleBuild sampleEnv sampleConfig
    sampleSlot "1234567" 20 32 (by decide) (by decide) (by decide)⟩

/-! ### The float conversion -/

theorem droppedBits_small (fuel n : Nat) (h : n < 2 ^ 24) : droppedBits fuel n = 0 := by
  cases fuel with
  | zero => rfl
  | succ f => simp only [droppedBits, if_pos h]

theorem droppedBits_spec :
    ∀ fuel n, n < 2 ^ fuel * 2 ^ 24 → 2 ^ 24 ≤ n →
      1 ≤ droppedBits fuel n ∧ 2 ^ 23 * 2 ^ droppedBits fuel n ≤ n
        ∧ n < 2 ^ 24 * 2 ^ droppedBits fuel n := by
  intro fuel
  induction fuel with
  | zero =>
    intro n h1 h2
    simp only [pow_zero, one_mul] at h1
    omega
  | succ f ih =>
    intro n h1 h2
    have hn : ¬ n < 2 ^ 24 := by omega
    simp only [droppedBits, if_neg hn]
    by_cases hm : n / 2 < 2 ^ 24
    · rw [droppedBits_small f (n / 2) hm]
      simp only [Nat.add_zero, pow_one]
      omega
    · have hX : n / 2 < 2 ^ f * 2 ^ 24 := by
        have e : 2 ^ (f + 1) * 2 ^ 24 = 2 * (2 ^ f * 2 ^ 24) := by ring
        rw [e] at h1
        omega
      obtain ⟨_, h4, h5⟩ := ih (n / 2) hX (by omega)
      have e : 2 ^ (1 + droppedBits f (n / 2)) = 2 * 2 ^ droppedBits f (n / 2) := by ring
      rw [e]
      omega

/-- The conversion to `float` moves a value by at most `2 ^ -24` of itself. -/
theorem toFloat_error (n : Nat) :
    2 ^ 24 * toFloat n ≤ 2 ^ 24 * n + n ∧ 2 ^ 24 * n ≤ 2 ^ 24 * toFloat n + n := by
  unfold toFloat
  by_cases hn : n < 2 ^ 24
  · simp only [if_pos hn]
    omega
  · simp only [if_neg hn]
    have hfuel : n < 2 ^ n * 2 ^ 24 := by
      have h1 := Nat.lt_two_pow n
      have h2 : 2 ^ n ≤ 2 ^ n * 2 ^ 24 := Nat.le_mul_of_pos_right _ (by norm_num)
      omega
    obtain ⟨he, hlo, _⟩ := droppedBits_spec n n hfuel (by omega)
    generalize droppedBits n n = e at he hlo ⊢
    obtain ⟨k, rfl⟩ : ∃ k, e = k + 1 := ⟨e - 1, by omega⟩
    have hE : 2 ^ (k + 1) = 2 * 2 ^ k := by ring
    simp only [Nat.add_sub_cancel]
    have hdm := Nat.div_add_mod n (2 ^ (k + 1))
    have hr : n % 2 ^ (k + 1) < 2 ^ (k + 1) := Nat.mod_lt _ (Nat.two_pow_pos _)
    have hq1 : (n / 2 ^ (k + 1) + 1) * 2 ^ (k + 1)
        = 2 ^ (k + 1) * (n / 2 ^ (k + 1)) + 2 ^ (k + 1) := by ring
    have hq0 : n / 2 ^ (k + 1) * 2 ^ (k + 1) = 2 ^ (k + 1) * (n / 2 ^ (k + 1)) := by ring
    rw [hq1, hq0]
    generalize 2 ^ (k + 1) * (n / 2 ^ (k + 1)) = qE at hdm ⊢
    generalize n % 2 ^ (k + 1) = r at hdm hr ⊢
    rw [hE] at hlo hr ⊢
    generalize 2 ^ k = H at hlo hr ⊢
    split
    · omega
    · split
      · omega
      · split <;> omega

theorem toFloat_exact (n : Nat) (h : n < 2 ^ 24) : toFloat n = n := by
  unfold toFloat
  exact if_pos h

/-- The conversion to `float` keeps the durations of distinct 16-bit step
counts in order. -/
theorem toFloat_mul_lt (a c i : Nat) (hac : a < c) (hc : c < 65536) (hi : 0 < i) :
    toFloat (a * i) < toFloat (c * i) := by
  have h1 := toFloat_error (a * i)
  have h2 := toFloat_error (c * i)
  have h3 : a * i + i ≤ c * i := by
    have : (a + 1) * i ≤ c * i := Nat.mul_le_mul_right i hac
    rw [Nat.add_mul, Nat.one_mul] at this
    exact this
  have h4 : c * i ≤ 65535 * i := Nat.mul_le_mul_right i (by omega)
  generalize toFloat (a * i) = fa at h1 ⊢
  generalize toFloat (c * i) = fc at h2 ⊢
  generalize a * i = ai at h1 h3
  generalize c * i = ci at h2 h3 h4
  omega

/-! ### Scroll duration -/

theorem calc_scroll_time_scrolls (b : Build) (env : Env) (cfg : EHMTX) (s : EHMTX_queue)
    (text : String) (screen_time th : Nat) (hm : scrollThreshold s.mode = some th)
    (hw : th ≤ measuredWidth env cfg s text) :
    (calc_scroll_time b env cfg s text screen_time).screen_time_
      = scroll_duration b 32 (scrollMargin s.mode) (measuredWidth env cfg s text) screen_time := by
  unfold measuredWidth at hw ⊢
  unfold calc_scroll_time
  cases hmode : s.mode <;> rw [hmode] at hm <;> simp only [scrollThreshold] at hm <;>
    cases hm <;>
    cases hf : s.default_font <;> simp only [hf, Bool.false_eq_true, if_false, if_true] at hw ⊢ <;>
    simp only [scrollMargin, if_neg (Nat.not_lt.mpr hw)] <;>
    cases b.EHMTXv2_SCROLL_SMALL_TEXT <;> simp only [Bool.false_eq_true, if_false, if_true]

theorem wrapInt32_of_lt (n : Nat) (h : n < 2 ^ 31) : wrapInt32 (n : Int) = (n : Int) := by
  unfold wrapInt32
  omega

theorem intToFloat_natCast (n : Nat) : intToFloat (n : Int) = (toFloat n : Int) := by
  unfold intToFloat
  rw [if_pos (Int.natCast_nonneg n), Int.toNat_natCast]

theorem scroll_duration_ge (b : Build) (width startx pixels screen_time : Nat) :
    screen_time ≤ scroll_duration b width startx pixels screen_time := by
  unfold scroll_duration
  simp only
  split <;> omega

/-- While the product fits the `int`, the result is the larger of the
requested time and the `float` of `max_steps * interval`. -/
theorem scroll_duration_fits (b : Build) (m pixels screen_time : Nat)
    (hint : maxSteps b m pixels * b.EHMTXv2_SCROLL_INTERVALL < 2 ^ 31) :
    scroll_duration b 32 m pixels screen_time
      = max screen_time (toFloat (maxSteps b m pixels * b.EHMTXv2_SCROLL_INTERVALL)) := by
  unfold scroll_duration
  have e : (((b.EHMTXv2_SCROLL_COUNT * (32 - m) + b.EHMTXv2_SCROLL_COUNT * pixels) % 65536
      : Nat) : Int) * (b.EHMTXv2_SCROLL_INTERVALL : Int)
      = ((maxSteps b m pixels * b.EHMTXv2_SCROLL_INTERVALL : Nat) : Int) := by
    unfold maxSteps
    push_cast
    rfl
  simp only
  rw [e, wrapInt32_of_lt _ hint, intToFloat_natCast]
  split <;> omega

theorem scroll_duration_eq (b : Build) (m pixels screen_time : Nat)
    (hfit : b.EHMTXv2_SCROLL_COUNT * ((32 - m) + pixels) < 65536)
    (hint : maxSteps b m pixels * b.EHMTXv2_SCROLL_INTERVALL < 2 ^ 31) :
    scroll_duration b 32 m pixels screen_time
      = max screen_time
          (toFloat (b.EHMTXv2_SCROLL_COUNT * ((32 - m) + pixels) * b.EHMTXv2_SCROLL_INTERVALL)) := by
  have e : maxSteps b m pixels = b.EHMTXv2_SCROLL_COUNT * ((32 - m) + pixels) := by
    unfold maxSteps
    rw [← Nat.mul_add, Nat.mod_eq_of_lt hfit]
  rw [scroll_duration_fits b m pixels screen_time hint, e]

/-- C6 as stated fails. In the default build (scroll count 2, interval 80)
a text slot with requested time 20000 gets the same `screen_time_` for the
widths 32 and 36, both at or above the threshold: the requested time
dominates both scroll durations. And with requested time 0 the width 32768
gets a smaller `screen_time_` than the width 4096, because the 16-bit
`max_steps` wraps. -/
theorem calc_scroll_time_not_strictly_increasing :
    ((0 < sampleBuild.EHMTXv2_SCROLL_COUNT ∧ 0 < sampleBuild.EHMTXv2_SCROLL_INTERVALL
        ∧ scrollThreshold sampleSlot.mode = some 32
        ∧ 32 ≤ measuredWidth sampleEnv sampleConfig sampleSlot "12345678"
        ∧ measuredWidth sampleEnv sampleConfig sampleSlot "12345678"
            < measuredWidth sampleEnv sampleConfig sampleSlot "123456789")
      ∧ ¬ ((calc_scroll_time sampleBuild sampleEnv sampleConfig sampleSlot "12345678"
              20000).screen_time_
            < (calc_scroll_time sampleBuild sampleEnv sampleConfig sampleSlot "123456789"
              20000).screen_time_))
    ∧ ((32 ≤ measuredWidth wideEnv sampleConfig sampleSlot "1"
        ∧ measuredWidth wideEnv sampleConfig sampleSlot "1"
            < measuredWidth wideEnv sampleConfig sampleSlot "12345678")
      ∧ ¬ ((calc_scroll_time sampleBuild wideEnv sampleConfig sampleSlot "1" 0).screen_time_
            < (calc_scroll_time sampleBuild wideEnv sampleConfig sampleSlot "12345678"
              0).screen_time_)) := by
  decide

/-- C6 amended: for every scrolling-capable mode, requested duration and
positive scroll count and interval, as long as the duration computation stays
within the 32-bit `int` for the widths considered, a text at or above the
threshold gets `screen_time_` at least the requested value; and for two widths
`p1 < p2` at or above the threshold whose step count
`count * (visible_width + p2)` fits the 16-bit `max_steps`, `screen_time_` does
not decrease from `p1` to `p2`, it increases strictly exactly when the
requested value is below the scroll duration of `p2`, and otherwise both equal
the requested value. -/
theorem calc_scroll_time_scrolling_monotone (b : Build) (env : Env) (cfg : EHMTX)
    (s : EHMTX_queue) (text1 text2 : String) (screen_time th : Nat)
    (hc : 0 < b.EHMTXv2_SCROLL_COUNT) (hi : 0 < b.EHMTXv2_SCROLL_INTERVALL)
    (hm : scrollThreshold s.mode = some th) (h1 : th ≤ measuredWidth env cfg s text1)
    (h12 : measuredWidth env cfg s text1 < measuredWidth env cfg s text2)
    (hint1 : intFits b (scrollMargin s.mode) (measuredWidth env cfg s text1))
    (hint2 : intFits b (scrollMargin s.mode) (measuredWidth env cfg s text2)) :
    screen_time ≤ (calc_scroll_time b env cfg s text1 screen_time).screen_time_
      ∧ screen_time ≤ (calc_scroll_time b env cfg s text2 screen_time).screen_time_
      ∧ (b.EHMTXv2_SCROLL_COUNT * ((32 - scrollMargin s.mode) + measuredWidth env cfg s text2)
            < 65536 →
          (calc_scroll_time b env cfg s text1 screen_time).screen_time_
              ≤ (calc_scroll_time b env cfg s text2 screen_time).screen_time_
            ∧ ((calc_scroll_time b env cfg s text1 screen_time).screen_time_
                < (calc_scroll_time b env cfg s text2 screen_time).screen_time_
              ↔ screen_time
                < toFloat (requiredTime b s.mode (measuredWidth env cfg s text2)))
            ∧ (toFloat (requiredTime b s.mode (measuredWidth env cfg s text2)) ≤ screen_time →
                (calc_scroll_time b env cfg s text1 screen_time).screen_time_ = screen_time
                  ∧ (calc_scroll_time b env cfg s text2 screen_time).screen_time_
                      = screen_time)) := by
  rw [calc_scroll_time_scrolls b env cfg s text1 screen_time th hm h1,
    calc_scroll_time_scrolls b env cfg s text2 screen_time th hm (by omega)]
  refine ⟨scroll_duration_ge _ _ _ _ _, scroll_duration_ge _ _ _ _ _, ?_⟩
  intro hfit
  have hp1 := hint1.2
  have hp2 := hint2.2
  generalize measuredWidth env cfg s text1 = p1 at h1 h12 hp1 ⊢
  generalize measuredWidth env cfg s text2 = p2 at h12 hfit hp2 ⊢
  have hsteps : b.EHMTXv2_SCROLL_COUNT * ((32 - scrollMargin s.mode) + p1)
      < b.EHMTXv2_SCROLL_COUNT * ((32 - scrollMargin s.mode) + p2) :=
    Nat.mul_lt_mul_of_pos_left (by omega) hc
  rw [scroll_duration_eq b _ p1 screen_time (by omega) hp1,
    scroll_duration_eq b _ p2 screen_time hfit hp2]
  have hlt := toFloat_mul_lt _ _ b.EHMTXv2_SCROLL_INTERVALL hsteps hfit hi
  unfold requiredTime
  generalize toFloat (b.EHMTXv2_SCROLL_COUNT * ((32 - scrollMargin s.mode) + p1)
    * b.EHMTXv2_SCROLL_INTERVALL) = d1 at hlt ⊢
  generalize toFloat (b.EHMTXv2_SCROLL_COUNT * ((32 - scrollMargin s.mode) + p2)
    * b.EHMTXv2_SCROLL_INTERVALL) = d2 at hlt ⊢
  omega

theorem calc_scroll_time_scrolling_monotone_witness :
    (0 < sampleBuild.EHMTXv2_SCROLL_COUNT ∧ 0 < sampleBuild.EHMTXv2_SCROLL_INTERVALL
        ∧ scrollThreshold sampleSlot.mode = some 32
        ∧ 32 ≤ measuredWidth sampleEnv sampleConfig sampleSlot "12345678"
        ∧ measuredWidth sampleEnv sampleConfig sampleSlot "12345678"
            < measuredWidth sampleEnv sampleConfig sampleSlot "123456789"
        ∧ intFits sampleBuild (scrollMargin sampleSlot.mode)
            (measuredWidth sampleEnv sampleConfig sampleSlot "12345678")
        ∧ intFits sampleBuild (scrollMargin sampleSlot.mode)
            (measuredWidth sampleEnv sampleConfig sampleSlot "123456789"))
      ∧ (20 ≤ (calc_scroll_time sampleBuild sampleEnv sampleConfig sampleSlot "12345678"
            20).screen_time_
        ∧ 20 ≤ (calc_scroll_time sampleBuild sampleEnv sampleConfig sampleSlot "123456789"
            20).screen_time_
        ∧ (sampleBuild.EHMTXv2_SCROLL_COUNT
              * ((32 - scrollMargin sampleSlot.mode)
                + measuredWidth sampleEnv sampleConfig sampleSlot "123456789") < 65536 →
            (calc_scroll_time sampleBuild sampleEnv sampleConfig sampleSlot "12345678"
                20).screen_time_
              ≤ (calc_scroll_time sampleBuild sampleEnv sampleConfig sampleSlot "123456789"
                20).screen_time_
            ∧ ((calc_scroll_time sampleBuild sampleEnv sampleConfig sampleSlot "12345678"
                  20).screen_time_
                < (calc_scroll_time sampleBuild sampleEnv sampleConfig sampleSlot "123456789"
                  20).screen_time_
              ↔ 20 < toFloat (requiredTime sampleBuild sampleSlot.mode
                  (measuredWidth sampleEnv sampleConfig sampleSlot "123456789")))
            ∧ (toFloat (requiredTime sampleBuild sampleSlot.mode
                  (measuredWidth sampleEnv sampleConfig sampleSlot "123456789")) ≤ 20 →
                (calc_scroll_time sampleBuild sampleEnv sampleConfig sampleSlot "12345678"
                    20).screen_time_ = 20
                  ∧ (calc_scroll_time sampleBuild sampleEnv sampleConfig sampleSlot "123456789"
                    20).screen_time_ = 20))) :=
  ⟨by decide, calc_scroll_time_scrolling_monotone sampleBuild sampleEnv sampleConfig sampleSlot
    "12345678" "123456789" 20 32 (by decide) (by decide) (by decide) (by decide) (by decide)
    (by decide) (by decide)⟩

/-- C7: for every mode, text and requested duration, after `calc_scroll_time`
the slot has `pixels_` equal to the measured width and `scroll_reset` equal to
the visible width (32 minus the margin of the mode) plus `pixels_`, whichever
branch was taken, in every build. -/
theorem calc_scroll_time_scroll_reset (b : Build) (env : Env) (cfg : EHMTX) (s : EHMTX_queue)
    (text : String) (screen_time : Nat) :
    (calc_scroll_time b env cfg s text screen_time).pixels_ = measuredWidth env cfg s text
      ∧ (calc_scroll_time b env cfg s text screen_time).scroll_reset
          = (32 - scrollMargin s.mode) + (calc_scroll_time b env cfg s text screen_time).pixels_ := by
  refine ⟨calc_scroll_time_pixels b env cfg s text screen_time, ?_⟩
  unfold calc_scroll_time scrollMargin
  cases hm : s.mode <;> cases hf : s.default_font <;> simp only [hm] <;>
    repeat (first | rfl | split)

/-- The reference of the specification agrees with `xpos` in the default policy. -/
theorem xpos_eq_xposRef (b : Build) (hb : b.isDefault) (cfg : EHMTX) (s : EHMTX_queue) :
    xpos b cfg s = xposRef s.mode s.pixels_ cfg.scroll_step cfg.display_gauge := by
  obtain ⟨h1, h2⟩ := hb
  unfold xpos xposRef xposMargin
  simp only [h1, h2, Bool.false_eq_true, if_false]
  cases hm : s.mode <;> cases hg : cfg.display_gauge <;>
    simp only [Bool.false_eq_true, if_false, if_true] <;>
    repeat (first
      | omega
      | split
      | (rw [Int.tdiv_eq_ediv (by omega) (by omega)]; omega))

/-- C8: in the default left-to-right policy `xpos` equals the reference
(margin 8 for icon-bearing modes, 8 for icon+text modes only when
`pixels < 32`, 0 otherwise, plus 2 with the gauge; short text centred, long
text at `m + w - scroll_step`), and two calls that agree on mode, pixels,
scroll step and gauge return the same offset. -/
theorem xpos_default_policy (b : Build) (hb : b.isDefault) (cfg cfg2 : EHMTX)
    (s s2 : EHMTX_queue) :
    xpos b cfg s = xposRef s.mode s.pixels_ cfg.scroll_step cfg.display_gauge
      ∧ (s2.mode = s.mode → s2.pixels_ = s.pixels_ → cfg2.scroll_step = cfg.scroll_step →
          cfg2.display_gauge = cfg.display_gauge → xpos b cfg2 s2 = xpos b cfg s) := by
  refine ⟨xpos_eq_xposRef b hb cfg s, ?_⟩
  intro e1 e2 e3 e4
  rw [xpos_eq_xposRef b hb cfg s, xpos_eq_xposRef b hb cfg2 s2, e1, e2, e3, e4]

theorem xpos_default_policy_witness :
    sampleBuild.isDefault
      ∧ (xpos sampleBuild sampleConfig sampleSlot
            = xposRef sampleSlot.mode sampleSlot.pixels_ sampleConfig.scroll_step
                sampleConfig.display_gauge
        ∧ ({ sampleSlot with text := "other", endtime := 7 }.mode = sampleSlot.mode →
            { sampleSlot with text := "other", endtime := 7 }.pixels_ = sampleSlot.pixels_ →
            { sampleConfig with hue_ := 12 }.scroll_step = sampleConfig.scroll_step →
            { sampleConfig with hue_ := 12 }.display_gauge = sampleConfig.display_gauge →
            xpos sampleBuild { sampleConfig with hue_ := 12 }
                { sampleSlot with text := "other", endtime := 7 }
              = xpos sampleBuild sampleConfig sampleSlot)) :=
  ⟨by decide, xpos_default_policy sampleBuild (by decide) sampleConfig
    { sampleConfig with hue_ := 12 } sampleSlot { sampleSlot with text := "other", endtime := 7 }⟩

/-! ## Hold extension -/

/-- C9: for every slot and every seconds value in 0..255, `hold_slot` adds
`1000 * s` to `endtime` and changes no other field, so `endtime` never
decreases; two holds add up, `hold_slot a` then `hold_slot b` giving
`endtime + 1000 * (a + b)`; a 5-second hold of `endtime = 1000` gives 6000 and a
second one 11000, so a positive hold is not idempotent. -/
theorem hold_slot_additive (s : EHMTX_queue) (a b : Nat) (ha : a < 256) (hb : b < 256) :
    hold_slot s a = { s with endtime := s.endtime + 1000 * a }
      ∧ s.endtime ≤ (hold_slot s a).endtime
      ∧ (a * 1000 < 2 ^ 31 ∧ b * 1000 < 2 ^ 31)
      ∧ (hold_slot (hold_slot s a) b).endtime = s.endtime + 1000 * (a + b)
      ∧ (0 < a → hold_slot (hold_slot s a) a ≠ hold_slot s a)
      ∧ (s.endtime = 1000 → (hold_slot s 5).endtime = 6000
          ∧ (hold_slot (hold_slot s 5) 5).endtime = 11000) := by
  refine ⟨?_, ?_, ?_, ?_, ?_, ?_⟩
  · simp only [hold_slot, Nat.mul_comm]
  · simp only [hold_slot]
    omega
  · omega
  · simp only [hold_slot]
    omega
  · intro hpos heq
    have h := congrArg EHMTX_queue.endtime heq
    simp only [hold_slot] at h
    omega
  · intro h
    simp [hold_slot, h]

theorem hold_slot_additive_witness :
    (5 < 256 ∧ 5 < 256)
      ∧ (hold_slot sampleSlot 5 = { sampleSlot with endtime := sampleSlot.endtime + 1000 * 5 }
        ∧ sampleSlot.endtime ≤ (hold_slot sampleSlot 5).endtime
        ∧ (5 * 1000 < 2 ^ 31 ∧ 5 * 1000 < 2 ^ 31)
        ∧ (hold_slot (hold_slot sampleSlot 5) 5).endtime = sampleSlot.endtime + 1000 * (5 + 5)
        ∧ (0 < 5 → hold_slot (hold_slot sampleSlot 5) 5 ≠ hold_slot sampleSlot 5)
        ∧ (sampleSlot.endtime = 1000 → (hold_slot sampleSlot 5).endtime = 6000
            ∧ (hold_slot (hold_slot sampleSlot 5) 5).endtime = 11000)) :=
  ⟨by decide, hold_slot_additive sampleSlot 5 5 (by decide) (by decide)⟩

/-! ## Hue animator -/

theorem update_anim_keeps_hue (env : Env) (t : Millis) (cfg : EHMTX) (s : EHMTX_queue) :
    (update_anim env t cfg s).hue_ = cfg.hue_
      ∧ (update_anim env t cfg s).last_rainbow_time = cfg.last_rainbow_time := by
  unfold update_anim
  repeat (first | exact ⟨rfl, rfl⟩ | split)

/-- C10: from a hue in `[0, 360)`, `update_screen` leaves the hue unchanged
when the 32-bit elapsed time since `last_rainbow_time` is below the rainbow
interval, and otherwise sets it to `(hue + 1) mod 360` (359 becomes 0) and
`last_rainbow_time` to the time read; in both cases the new hue is in
`[0, 360)`, so 360 is never observable. -/
theorem update_screen_hue (b : Build) (env : Env) (t : Millis) (cfg : EHMTX) (s : EHMTX_queue)
    (hh : cfg.hue_ < 360) :
    (sub32 t.rainbow_test cfg.last_rainbow_time < b.EHMTXv2_RAINBOW_INTERVALL →
        (update_screen b env t cfg s).hue_ = cfg.hue_
          ∧ (update_screen b env t cfg s).last_rainbow_time = cfg.last_rainbow_time)
      ∧ (b.EHMTXv2_RAINBOW_INTERVALL ≤ sub32 t.rainbow_test cfg.last_rainbow_time →
        (update_screen b env t cfg s).hue_ = (cfg.hue_ + 1) % 360
          ∧ (cfg.hue_ = 359 → (update_screen b env t cfg s).hue_ = 0)
          ∧ (update_screen b env t cfg s).last_rainbow_time = t.rainbow_store)
      ∧ (update_screen b env t cfg s).hue_ < 360
      ∧ (update_screen b env t cfg s).hue_ ≠ 360 := by
  obtain ⟨e1, e2⟩ := update_anim_keeps_hue env t (update_rainbow b env t cfg) s
  unfold update_screen
  rw [e1, e2]
  unfold update_rainbow
  by_cases hel : sub32 t.rainbow_test cfg.last_rainbow_time ≥ b.EHMTXv2_RAINBOW_INTERVALL
  · simp only [if_pos hel]
    by_cases h359 : cfg.hue_ + 1 = 360
    · simp only [if_pos h359]
      refine ⟨fun h => absurd hel (by omega), fun _ => ⟨by omega, fun _ => trivial, trivial⟩,
        ?_, ?_⟩ <;> omega
    · simp only [if_neg h359]
      refine ⟨fun h => absurd hel (by omega), fun _ => ⟨by omega, fun h => by omega, trivial⟩,
        ?_, ?_⟩ <;> omega
  · simp only [if_neg hel]
    refine ⟨fun _ => ⟨trivial, trivial⟩, fun h => absurd h hel, hh, by omega⟩

theorem update_screen_hue_witness :
    sampleConfig.hue_ < 360
      ∧ ((sub32 5000 sampleConfig.last_rainbow_time < sampleBuild.EHMTXv2_RAINBOW_INTERVALL →
          (update_screen sampleBuild sampleEnv ⟨5000, 5001, 5001, 5002⟩ sampleConfig sampleSlot).hue_
              = sampleConfig.hue_
            ∧ (update_screen sampleBuild sampleEnv ⟨5000, 5001, 5001, 5002⟩ sampleConfig
                sampleSlot).last_rainbow_time = sampleConfig.last_rainbow_time)
        ∧ (sampleBuild.EHMTXv2_RAINBOW_INTERVALL ≤ sub32 5000 sampleConfig.last_rainbow_time →
          (update_screen sampleBuild sampleEnv ⟨5000, 5001, 5001, 5002⟩ sampleConfig sampleSlot).hue_
              = (sampleConfig.hue_ + 1) % 360
            ∧ (sampleConfig.hue_ = 359 →
                (update_screen sampleBuild sampleEnv ⟨5000, 5001, 5001, 5002⟩ sampleConfig
                  sampleSlot).hue_ = 0)
            ∧ (update_screen sampleBuild sampleEnv ⟨5000, 5001, 5001, 5002⟩ sampleConfig
                sampleSlot).last_rainbow_time = 5001)
        ∧ (update_screen sampleBuild sampleEnv ⟨5000, 5001, 5001, 5002⟩ sampleConfig sampleSlot).hue_
            < 360
        ∧ (update_screen sampleBuild sampleEnv ⟨5000, 5001, 5001, 5002⟩ sampleConfig sampleSlot).hue_
            ≠ 360) :=
  ⟨by decide, update_screen_hue sampleBuild sampleEnv ⟨5000, 5001, 5001, 5002⟩ sampleConfig
    sampleSlot (by decide)⟩

/-! ## Diffusion of one fire column -/

theorem diffuseCell_machine_eq (x : Nat) (hx : x < 32) (h : Heat) (y : Nat)
    (hh : InRange h) (hy : y < 7) :
    diffuseCell machine x h y
      = store h (x + y * 32)
          (if y < 6 then (2 * load h (x + (y + 1) * 32) + load h (x + (y + 2) * 32)) / 3
           else (2 * load h (x + y * 32) + load h (x + (y + 1) * 32)) / 3) := by
  rw [(diffuseCell_agree x hx h y hh hy).1]
  by_cases hy6 : y < 6
  · have h6 : 8 - 2 > y := by omega
    simp only [diffuseCell, unbounded, if_pos h6, if_pos hy6]
    exact congrArg (store h (x + y * 32)) (by omega)
  · have h6 : ¬ 8 - 2 > y := by omega
    simp only [diffuseCell, unbounded, if_neg h6, if_neg hy6, Nat.add_zero]
    exact congrArg (store h (x + y * 32)) (by omega)

/-- After `k` iterations of the diffusion loop the rows below `k` hold the
simultaneous update, the rows from `k` on and the other columns still hold the
values the loop started with, and the buffer is in range. -/
theorem diffusePrefix_invariant (x : Nat) (hx : x < 32) (h : Heat) (hh : InRange h) :
    ∀ k, k ≤ 7 →
      InRange (diffusePrefix machine x h k)
        ∧ (∀ r, k ≤ r → r < 8 →
            load (diffusePrefix machine x h k) (x + r * 32) = load h (x + r * 32))
        ∧ (∀ y, y < k →
            load (diffusePrefix machine x h k) (x + y * 32) = diffuseSimultaneous h x y)
        ∧ (∀ j, j % 32 ≠ x → load (diffusePrefix machine x h k) j = load h j) := by
  intro k
  induction k with
  | zero =>
    intro _
    exact ⟨hh, fun _ _ _ => rfl, fun y hy => absurd hy (Nat.not_lt_zero y), fun _ _ => rfl⟩
  | succ k ih =>
    intro hk
    obtain ⟨r1, r2, r3, r4⟩ := ih (by omega)
    have hstep : diffusePrefix machine x h (k + 1)
        = diffuseCell machine x (diffusePrefix machine x h k) k := by
      simp only [diffusePrefix, List.range_succ, List.foldl_append, List.foldl_cons,
        List.foldl_nil]
    rw [hstep, diffuseCell_machine_eq x hx _ k r1 (by omega)]
    have hlen : x + k * 32 < (diffusePrefix machine x h k).length := by
      rw [r1.1]
      unfold m_heatSize
      omega
    have hval : (if k < 6 then (2 * load (diffusePrefix machine x h k) (x + (k + 1) * 32)
          + load (diffusePrefix machine x h k) (x + (k + 2) * 32)) / 3
        else (2 * load (diffusePrefix machine x h k) (x + k * 32)
          + load (diffusePrefix machine x h k) (x + (k + 1) * 32)) / 3)
        = diffuseSimultaneous h x k := by
      unfold diffuseSimultaneous
      by_cases hk6 : k < 6
      · simp only [if_pos hk6]
        rw [r2 (k + 1) (by omega) (by omega), r2 (k + 2) (by omega) (by omega)]
      · have e6 : k = 6 := by omega
        subst e6
        simp only [if_neg hk6, if_true]
        rw [r2 6 (by omega) (by omega), r2 7 (by omega) (by omega)]
    rw [hval]
    have hbound : diffuseSimultaneous h x k ≤ 255 := by
      rw [← hval]
      have a1 := r1.2 (x + (k + 1) * 32) (by unfold m_heatSize; omega)
      have a0 := r1.2 (x + k * 32) (by unfold m_heatSize; omega)
      by_cases hk6 : k < 6
      · have a2 := r1.2 (x + (k + 2) * 32) (by unfold m_heatSize; omega)
        simp only [if_pos hk6]
        omega
      · simp only [if_neg hk6]
        omega
    refine ⟨store_inRange r1 _ hbound, ?_, ?_, ?_⟩
    · intro r hr1 hr2
      rw [load_store_other _ _ _ _ (by omega)]
      exact r2 r (by omega) hr2
    · intro y hy
      by_cases hyk : y = k
      · rw [hyk, load_store_same _ _ _ hlen]
      · rw [load_store_other _ _ _ _ (by omega)]
        exact r3 y (by omega)
    · intro j hj
      rw [load_store_other _ _ _ _ (by omega)]
      exact r4 j hj

theorem load_le_columnMax (h : Heat) (x y : Nat) (hy : y < 8) :
    load h (x + y * 32) ≤ columnMax h x := by
  have hr : List.range 8 = [0, 1, 2, 3, 4, 5, 6, 7] := by decide
  unfold columnMax
  rw [hr]
  simp only [List.foldl_cons, List.foldl_nil]
  have hcases : y = 0 ∨ y = 1 ∨ y = 2 ∨ y = 3 ∨ y = 4 ∨ y = 5 ∨ y = 6 ∨ y = 7 := by omega
  rcases hcases with e | e | e | e | e | e | e | e <;> subst e <;> omega

open Mode

/-- C15: on an in-range buffer the in-place diffusion loop of column `x`
equals the simultaneous update from the cooled column: row `y` becomes
`(2 * c[y+1] + c[y+2]) / 3` for `y` in 0..5 and `(2 * c[6] + c[7]) / 3` for
`y = 6`, row 7 is unchanged; before iteration `k` the rows from `k` on, which
are the only ones it reads, still hold the cooled values; each new value is at
most the maximum of the cooled column; cells of other columns are neither
written nor read. -/
theorem diffuseColumn_simultaneous (x : Nat) (h h2 : Heat) (hx : x < 32) (hh : InRange h)
    (hh2 : InRange h2) :
    (∀ y, y < 8 → load (diffuseColumn machine x h) (x + y * 32) = diffuseSimultaneous h x y)
      ∧ (∀ k r, k ≤ 7 → k ≤ r → r < 8 →
          load (diffusePrefix machine x h k) (x + r * 32) = load h (x + r * 32))
      ∧ (∀ y, y < 8 → diffuseSimultaneous h x y ≤ columnMax h x)
      ∧ (∀ j, j % 32 ≠ x → load (diffuseColumn machine x h) j = load h j)
      ∧ ((∀ y, y < 8 → load h2 (x + y * 32) = load h (x + y * 32)) →
          ∀ y, y < 8 →
            load (diffuseColumn machine x h2) (x + y * 32)
              = load (diffuseColumn machine x h) (x + y * 32)) := by
  have hcol : ∀ g : Heat, diffuseColumn machine x g = diffusePrefix machine x g 7 := fun _ => rfl
  have hall : ∀ g : Heat, InRange g → ∀ y, y < 8 →
      load (diffuseColumn machine x g) (x + y * 32) = diffuseSimultaneous g x y := by
    intro g hg y hy
    obtain ⟨_, r2, r3, _⟩ := diffusePrefix_invariant x hx g hg 7 (Nat.le_refl 7)
    rw [hcol]
    by_cases hy7 : y < 7
    · exact r3 y hy7
    · have e7 : y = 7 := by omega
      subst e7
      rw [r2 7 (Nat.le_refl 7) (by omega)]
      simp [diffuseSimultaneous]
  refine ⟨hall h hh, ?_, ?_, ?_, ?_⟩
  · intro k r hk hkr hr
    exact (diffusePrefix_invariant x hx h hh k hk).2.1 r hkr hr
  · intro y hy
    have m0 := load_le_columnMax h x y hy
    have m1 := load_le_columnMax h x (y + 1)
    have m2 := load_le_columnMax h x (y + 2)
    have m6 := load_le_columnMax h x 6 (by omega)
    have m7 := load_le_columnMax h x 7 (by omega)
    unfold diffuseSimultaneous
    by_cases hy6 : y < 6
    · have a1 := m1 (by omega)
      have a2 := m2 (by omega)
      simp only [if_pos hy6]
      omega
    · simp only [if_neg hy6]
      split <;> omega
  · intro j hj
    rw [hcol]
    exact (diffusePrefix_invariant x hx h hh 7 (Nat.le_refl 7)).2.2.2 j hj
  · intro hsame y hy
    rw [hall h hh y hy, hall h2 hh2 y hy]
    unfold diffuseSimultaneous
    rw [hsame 6 (by omega), hsame 7 (by omega)]
    by_cases hy6 : y < 6
    · simp only [if_pos hy6]
      rw [hsame (y + 1) (by omega), hsame (y + 2) (by omega)]
    · simp only [if_neg hy6]

theorem diffuseColumn_simultaneous_witness :
    (3 < 32 ∧ InRange sampleHeat ∧ InRange zeroHeat)
      ∧ (∀ y, y < 8 →
          load (diffuseColumn machine 3 sampleHeat) (3 + y * 32)
            = diffuseSimultaneous sampleHeat 3 y) :=
  have hh : InRange sampleHeat := by set_option maxRecDepth 100000 in decide
  ⟨⟨by decide, hh, zeroHeat_inRange⟩,
    (diffuseColumn_simultaneous 3 sampleHeat zeroHeat (by decide) hh zeroHeat_inRange).1⟩

/-! ## Scroll position and scroll timing -/

theorem calc_scroll_time_mode (b : Build) (env : Env) (cfg : EHMTX) (s : EHMTX_queue)
    (text : String) (screen_time : Nat) :
    (calc_scroll_time b env cfg s text screen_time).mode = s.mode := by
  unfold calc_scroll_time
  cases hm : s.mode <;> cases hf : s.default_font <;> simp only [hm] <;>
    repeat (first | rfl | split)

theorem scroll_duration_ge_duration (b : Build) (m pixels screen_time : Nat)
    (hint : maxSteps b m pixels * b.EHMTXv2_SCROLL_INTERVALL < 2 ^ 31) :
    toFloat (maxSteps b m pixels * b.EHMTXv2_SCROLL_INTERVALL)
      ≤ scroll_duration b 32 m pixels screen_time := by
  rw [scroll_duration_fits b m pixels screen_time hint]
  omega

/-- C16 as stated fails: in the default build with the gauge displayed, a text
slot whose text measures 30 pixels is positioned by `scroll_step` (`xpos` is
`32 - scroll_step`), yet `calc_scroll_time` takes its fits branch and leaves
`screen_time_` at the requested 20, below the scroll duration 9920. -/
theorem scroll_position_timing_disagree_with_gauge :
    (sampleBuild.isDefault ∧ scrollThreshold specialSlot.mode = some 32
        ∧ measuredWidth sampleEnv gaugeConfig specialSlot "12345" = 30
        ∧ 32 - xposMargin specialSlot.mode 30 gaugeConfig.display_gauge ≤ 30)
      ∧ xpos sampleBuild gaugeConfig
          (calc_scroll_time sampleBuild sampleEnv gaugeConfig specialSlot "12345" 20)
          = 32 - (gaugeConfig.scroll_step : Int)
      ∧ (calc_scroll_time sampleBuild sampleEnv gaugeConfig specialSlot "12345" 20).screen_time_
          = 20
      ∧ ¬ (scroll_duration sampleBuild 32 0 30 0
            ≤ (calc_scroll_time sampleBuild sampleEnv gaugeConfig specialSlot "12345"
                20).screen_time_) := by
  decide

/-- C16 amended: in the default left-to-right policy, for every
scrolling-capable mode and width, whenever `xpos` positions the text by
`scroll_step`, either the gauge is off or the width is at least the threshold
of the mode in `calc_scroll_time`, and the duration computation stays within
the 32-bit `int`, `calc_scroll_time` takes its scrolling branch: `screen_time_`
is the scroll duration result, at least the computed duration and at least the
requested value. -/
theorem scroll_position_timing_agree (b : Build) (env : Env) (cfg : EHMTX) (s : EHMTX_queue)
    (text : String) (screen_time th : Nat) (hb : b.isDefault)
    (hm : scrollThreshold s.mode = some th)
    (hscroll : 32 - xposMargin s.mode (measuredWidth env cfg s text) cfg.display_gauge
      ≤ measuredWidth env cfg s text)
    (hg : cfg.display_gauge = false ∨ th ≤ measuredWidth env cfg s text)
    (hint : intFits b (scrollMargin s.mode) (measuredWidth env cfg s text)) :
    xpos b cfg (calc_scroll_time b env cfg s text screen_time)
        = ((xposMargin s.mode (measuredWidth env cfg s text) cfg.display_gauge : Nat) : Int)
          + ((32 - xposMargin s.mode (measuredWidth env cfg s text) cfg.display_gauge : Nat) : Int)
          - (cfg.scroll_step : Int)
      ∧ (calc_scroll_time b env cfg s text screen_time).screen_time_
          = scroll_duration b 32 (scrollMargin s.mode) (measuredWidth env cfg s text) screen_time
      ∧ toFloat (maxSteps b (scrollMargin s.mode) (measuredWidth env cfg s text)
            * b.EHMTXv2_SCROLL_INTERVALL)
          ≤ (calc_scroll_time b env cfg s text screen_time).screen_time_
      ∧ screen_time ≤ (calc_scroll_time b env cfg s text screen_time).screen_time_ := by
  have hth : th ≤ measuredWidth env cfg s text := by
    rcases hg with hg | hg
    · rw [hg] at hscroll
      generalize measuredWidth env cfg s text = p at hscroll ⊢
      unfold xposMargin at hscroll
      cases hmode : s.mode <;> rw [hmode] at hm hscroll <;> simp only [scrollThreshold] at hm <;>
        cases hm <;> simp only [Bool.false_eq_true, if_false] at hscroll <;>
        first
        | omega
        | (split at hscroll <;> omega)
    · exact hg
  have hst := calc_scroll_time_scrolls b env cfg s text screen_time th hm hth
  refine ⟨?_, hst, ?_, ?_⟩
  · rw [xpos_eq_xposRef b hb, calc_scroll_time_mode, calc_scroll_time_pixels]
    unfold xposRef
    simp only [if_neg (Nat.not_lt.mpr hscroll)]
  · rw [hst]
    exact scroll_duration_ge_duration b _ _ _ hint.2
  · rw [hst]
    exact scroll_duration_ge b 32 _ _ _

theorem scroll_position_timing_agree_witness :
    (sampleBuild.isDefault ∧ scrollThreshold sampleSlot.mode = some 32
        ∧ 32 - xposMargin sampleSlot.mode
              (measuredWidth sampleEnv sampleConfig sampleSlot "12345678")
              sampleConfig.display_gauge
            ≤ measuredWidth sampleEnv sampleConfig sampleSlot "12345678"
        ∧ (sampleConfig.display_gauge = false
            ∨ 32 ≤ measuredWidth sampleEnv sampleConfig sampleSlot "12345678")
        ∧ intFits sampleBuild (scrollMargin sampleSlot.mode)
            (measuredWidth sampleEnv sampleConfig sampleSlot "12345678"))
      ∧ ((calc_scroll_time sampleBuild sampleEnv sampleConfig sampleSlot "12345678"
            20).screen_time_
          = scroll_duration sampleBuild 32 (scrollMargin sampleSlot.mode)
              (measuredWidth sampleEnv sampleConfig sampleSlot "12345678") 20
        ∧ toFloat (maxSteps sampleBuild (scrollMargin sampleSlot.mode)
              (measuredWidth sampleEnv sampleConfig sampleSlot "12345678")
              * sampleBuild.EHMTXv2_SCROLL_INTERVALL)
            ≤ (calc_scroll_time sampleBuild sampleEnv sampleConfig sampleSlot "12345678"
                20).screen_time_
        ∧ 20 ≤ (calc_scroll_time sampleBuild sampleEnv sampleConfig sampleSlot "12345678"
            20).screen_time_) :=
  ⟨by decide, (scroll_position_timing_agree sampleBuild sampleEnv sampleConfig sampleSlot
    "12345678" 20 32 (by decide) (by decide) (by decide) (by decide) (by decide)).2⟩

/-! ## Day and weekday overlay -/

/-- C11: for the split pair of the day and of the weekday overlay with glyph
widths `l` and `r ≤ 9`, submode 0 gives `x_left = 0` and `x_right = 9 - r`,
submode 1 gives `x_left = 5 - l` clamped at 0 and `x_right = 4`, submode 2 gives
`x_left = 5 - l` clamped at 0 and `x_right = 9 - r`; widths 3 and 5 give
`(0, 4)` in submode 0 and `(2, 4)` in submode 1. -/
theorem overlay_layout (l r : Nat) (hr : r ≤ 9) :
    (dayLayout 0 l r = (0, 9 - r) ∧ dayLayout 1 l r = (5 - l, 4)
        ∧ dayLayout 2 l r = (5 - l, 9 - r))
      ∧ (weekdayLayout 0 l r = (0, 9 - r) ∧ weekdayLayout 1 l r = (5 - l, 4)
        ∧ weekdayLayout 2 l r = (5 - l, 9 - r))
      ∧ (5 ≤ l → (dayLayout 1 l r).1 = 0 ∧ (dayLayout 2 l r).1 = 0
        ∧ (weekdayLayout 1 l r).1 = 0 ∧ (weekdayLayout 2 l r).1 = 0)
      ∧ (dayLayout 0 3 5 = (0, 4) ∧ dayLayout 1 3 5 = (2, 4))
      ∧ (weekdayLayout 0 3 5 = (0, 4) ∧ weekdayLayout 1 3 5 = (2, 4)) := by
  have hR : toU8 (9 - (r : Int)) = 9 - r := by
    unfold toU8
    omega
  have hL : toU8 (if l < 5 then 5 - (l : Int) else 0) = 5 - l := by
    unfold toU8
    split <;> omega
  refine ⟨⟨?_, ?_, ?_⟩, ⟨?_, ?_, ?_⟩, ?_, by decide, by decide⟩
  · simp [dayLayout, hR]
  · simp [dayLayout, hL]
  · simp [dayLayout, hL, hR]
  · simp [weekdayLayout, hR]
  · simp [weekdayLayout, hL]
  · simp [weekdayLayout, hL, hR]
  · intro hl
    have h0 : 5 - l = 0 := by omega
    simp [dayLayout, weekdayLayout, hL, h0]

theorem overlay_layout_witness :
    7 ≤ 9
      ∧ ((dayLayout 0 2 7 = (0, 9 - 7) ∧ dayLayout 1 2 7 = (5 - 2, 4)
          ∧ dayLayout 2 2 7 = (5 - 2, 9 - 7))
        ∧ (weekdayLayout 0 2 7 = (0, 9 - 7) ∧ weekdayLayout 1 2 7 = (5 - 2, 4)
          ∧ weekdayLayout 2 2 7 = (5 - 2, 9 - 7))
        ∧ (5 ≤ 2 → (dayLayout 1 2 7).1 = 0 ∧ (dayLayout 2 2 7).1 = 0
          ∧ (weekdayLayout 1 2 7).1 = 0 ∧ (weekdayLayout 2 2 7).1 = 0)
        ∧ (dayLayout 0 3 5 = (0, 4) ∧ dayLayout 1 3 5 = (2, 4))
        ∧ (weekdayLayout 0 3 5 = (0, 4) ∧ weekdayLayout 1 3 5 = (2, 4))) :=
  ⟨by decide, overlay_layout 2 7 (by decide)⟩

/-! ## Renderer -/

theorem update_screen_next_action_time (b : Build) (env : Env) (t : Millis) (cfg : EHMTX)
    (s : EHMTX_queue) :
    (update_screen b env t cfg s).next_action_time = cfg.next_action_time := by
  have h1 : ∀ c : EHMTX, (update_anim env t c s).next_action_time = c.next_action_time := by
    intro c
    unfold update_anim
    repeat (first | rfl | split)
  have h2 : (update_rainbow b env t cfg).next_action_time = cfg.next_action_time := by
    unfold update_rainbow
    by_cases hel : sub32 t.rainbow_test cfg.last_rainbow_time ≥ b.EHMTXv2_RAINBOW_INTERVALL
    · simp only [if_pos hel]
      by_cases h360 : cfg.hue_ + 1 = 360
      · simp only [if_pos h360]
      · simp only [if_neg h360]
    · simp only [if_neg hel]
  unfold update_screen
  rw [h1, h2]

theorem drawSwitch_unhandled (b : Build) (db : DrawBuild) (de : DrawEnv) (dc : DrawConfig)
    (d : Draws) (cfg : EHMTX) (heat : Heat) (s : EHMTX_queue) (xoffset yoffset : Int)
    (font info_font : Font) (hm : drawHandles db s.mode = false) :
    drawSwitch b db de dc d cfg heat s xoffset yoffset font info_font
      = some (drawDefault cfg heat) := by
  unfold drawSwitch
  cases hmode : s.mode <;> rw [hmode] at hm <;> simp [drawHandles] at hm <;> simp [hm]

theorem drawSwitch_handled (b : Build) (db : DrawBuild) (de : DrawEnv) (dc : DrawConfig)
    (d : Draws) (cfg : EHMTX) (heat : Heat) (s : EHMTX_queue) (xoffset yoffset : Int)
    (font info_font : Font) (hm : drawHandles db s.mode = true)
    (r : EHMTX × Heat × List Cmd)
    (hr : drawSwitch b db de dc d cfg heat s xoffset yoffset font info_font = some r) :
    r.1 = cfg := by
  unfold drawSwitch at hr
  cases hmode : s.mode <;> rw [hmode] at hm <;> simp only [drawHandles] at hm <;>
    simp only [hmode, hm, if_true] at hr <;>
    first
    | (cases hr; rfl)
    | (split at hr <;> first | (cases hr; rfl) | cases hr)
    | cases hm


theorem drawSwitch_none (b : Build) (db : DrawBuild) (de : DrawEnv) (dc : DrawConfig)
    (d : Draws) (cfg : EHMTX) (heat : Heat) (s : EHMTX_queue) (xoffset yoffset : Int)
    (font info_font : Font)
    (hr : drawSwitch b db de dc d cfg heat s xoffset yoffset font info_font = none) :
    (s.mode = MODE_ICON_CLOCK ∨ s.mode = MODE_ICON_DATE) ∧ (de.now 0).is_valid = true
      ∧ overlayMode s.icon_name = none := by
  have hov : drawIconClock db de dc s xoffset yoffset font info_font = none →
      (de.now 0).is_valid = true ∧ overlayMode s.icon_name = none := by
    intro h
    unfold drawIconClock at h
    by_cases hv : (de.now 0).is_valid = true
    · refine ⟨hv, ?_⟩
      simp only [hv, if_true] at h
      cases ho : overlay de dc info_font yoffset s.icon_name (de.now 3) with
      | some g => simp [ho] at h
      | none =>
        unfold overlay at ho
        split at ho
        · cases hmo : overlayMode s.icon_name with
          | none => rfl
          | some m =>
            simp only [hmo] at ho
            split at ho <;> cases ho
        · cases ho
    · simp [hv] at h
  unfold drawSwitch at hr
  cases hmode : s.mode <;> simp only [hmode] at hr <;>
    first
    | cases hr
    | (split at hr <;> first | (rename_i heq; exact ⟨by simp, hov heq⟩) | cases hr)

/-- C14: with the display running, a mode for which the switch has no case
makes `draw` return with the single display call `clear`, the heat buffer
untouched and the shared context equal to `update_screen` of the context with
`next_action_time` reset to 0, so `next_action_time` is 0 after the call; for a
mode the switch handles, every result of `draw` has `next_action_time`
unchanged, and `draw` fails to return only in the icon+clock and icon+date
modes with a valid clock and a `#` suffix `std::stoi` rejects. -/
theorem draw_unrecognized_mode (b : Build) (db : DrawBuild) (env : Env) (de : DrawEnv)
    (dc : DrawConfig) (t : Millis) (d : Draws) (cfg : EHMTX) (heat : Heat) (s : EHMTX_queue)
    (hrun : cfg.is_running = true) :
    (drawHandles db s.mode = false →
        draw b db env de dc t d cfg heat s
            = some (update_screen b env t { cfg with next_action_time := 0 } s, heat,
                [Cmd.clear])
          ∧ (update_screen b env t { cfg with next_action_time := 0 } s).next_action_time = 0)
      ∧ (drawHandles db s.mode = true →
          (∀ r, draw b db env de dc t d cfg heat s = some r →
              r.1.next_action_time = cfg.next_action_time)
            ∧ (draw b db env de dc t d cfg heat s = none →
                (s.mode = MODE_ICON_CLOCK ∨ s.mode = MODE_ICON_DATE)
                  ∧ (de.now 0).is_valid = true ∧ overlayMode s.icon_name = none)) := by
  constructor
  · intro hm
    refine ⟨?_, ?_⟩
    · simp only [draw, hrun, if_true, drawSwitch_unhandled b db de dc d cfg heat s _ _ _ _ hm,
        drawDefault]
    · rw [update_screen_next_action_time]
  · intro hm
    constructor
    · intro r hr
      simp only [draw, hrun, if_true] at hr
      split at hr
      · cases hr
      · rename_i cfg2 heat2 cmds heq
        cases hr
        have h := drawSwitch_handled b db de dc d cfg heat s _ _ _ _ hm _ heq
        simp only at h
        rw [update_screen_next_action_time, h]
    · intro hr
      simp only [draw, hrun, if_true] at hr
      split at hr
      · rename_i heq
        exact drawSwitch_none b db de dc d cfg heat s _ _ _ _ heq
      · cases hr

theorem draw_unrecognized_mode_witness :
    sampleConfig.is_running = true
      ∧ ((drawHandles sampleDrawBuild emptySlot.mode = false →
          draw sampleBuild sampleDrawBuild sampleEnv sampleDrawEnv sampleDrawConfig sampleMillis
              sampleDraws sampleConfig sampleHeat emptySlot
            = some (update_screen sampleBuild sampleEnv sampleMillis
                { sampleConfig with next_action_time := 0 } emptySlot, sampleHeat, [Cmd.clear])
          ∧ (update_screen sampleBuild sampleEnv sampleMillis
              { sampleConfig with next_action_time := 0 } emptySlot).next_action_time = 0)
        ∧ (drawHandles sampleDrawBuild emptySlot.mode = true →
          (∀ r, draw sampleBuild sampleDrawBuild sampleEnv sampleDrawEnv sampleDrawConfig
                sampleMillis sampleDraws sampleConfig sampleHeat emptySlot = some r →
              r.1.next_action_time = sampleConfig.next_action_time)
            ∧ (draw sampleBuild sampleDrawBuild sampleEnv sampleDrawEnv sampleDrawConfig
                sampleMillis sampleDraws sampleConfig sampleHeat emptySlot = none →
              (emptySlot.mode = MODE_ICON_CLOCK ∨ emptySlot.mode = MODE_ICON_DATE)
                ∧ (sampleDrawEnv.now 0).is_valid = true
                ∧ overlayMode emptySlot.icon_name = none))) :=
  ⟨by decide, draw_unrecognized_mode sampleBuild sampleDrawBuild sampleEnv sampleDrawEnv
    sampleDrawConfig sampleMillis sampleDraws sampleConfig sampleHeat emptySlot (by decide)⟩


theorem textColors_append (a c : List Cmd) :
    textColors (a ++ c) = textColors a ++ textColors c := by
  induction a with
  | nil => rfl
  | cons x xs ih => cases x <;> simp [textColors, ih]

theorem textColors_printText (b : Build) (cfg : EHMTX) (s : EHMTX_queue) (xoffset yoffset : Int)
    (font : Font) (color_ : Color) (rest : List Cmd) :
    textColors (printText b cfg s xoffset yoffset font color_ :: rest)
      = color_ :: textColors rest := by
  unfold printText
  split <;> rfl

/-- The colour of the text call of each rainbow mode, for every running
context and every slot: `rainbow_color` for rainbow text, rainbow icon, rainbow
small bitmap, rainbow clock and rainbow date (with a valid clock), but
`text_color` for rainbow icon+text. -/
theorem draw_rainbow_text_colours (b : Build) (db : DrawBuild) (env : Env) (de : DrawEnv)
    (dc : DrawConfig) (t : Millis) (d : Draws) (cfg : EHMTX) (heat : Heat) (s : EHMTX_queue)
    (hrun : cfg.is_running = true) :
    (s.mode = MODE_RAINBOW_TEXT →
        drawnTextColors (draw b db env de dc t d cfg heat s) = some [cfg.rainbow_color])
      ∧ (s.mode = MODE_RAINBOW_ICON →
        drawnTextColors (draw b db env de dc t d cfg heat s) = some [cfg.rainbow_color])
      ∧ (s.mode = MODE_RAINBOW_BITMAP_SMALL → db.USE_ESP8266 = false →
        drawnTextColors (draw b db env de dc t d cfg heat s) = some [cfg.rainbow_color])
      ∧ (s.mode = MODE_RAINBOW_CLOCK → (de.now 0).is_valid = true →
        drawnTextColors (draw b db env de dc t d cfg heat s) = some [cfg.rainbow_color])
      ∧ (s.mode = MODE_RAINBOW_DATE → (de.now 0).is_valid = true →
        drawnTextColors (draw b db env de dc t d cfg heat s) = some [cfg.rainbow_color])
      ∧ (s.mode = MODE_RAINBOW_ICON_TEXT_SCREEN →
        drawnTextColors (draw b db env de dc t d cfg heat s) = some [s.text_color]) := by
  refine ⟨?_, ?_, ?_, ?_, ?_, ?_⟩
  · intro hm
    simp [drawnTextColors, draw, hrun, drawSwitch, hm, drawText, textColors,
      textColors_printText]
  · intro hm
    simp only [drawnTextColors, draw, hrun, drawSwitch, hm, drawIcon, if_true, Option.map_some',
      textColors, List.singleton_append, textColors_printText]
    simp only [reduceCtorEq, if_false]
    split <;> split <;> simp [textColors]
  · intro hm h8266
    simp only [drawnTextColors, draw, hrun, drawSwitch, hm, h8266, drawBitmapSmall, if_true,
      Option.map_some', textColors, List.singleton_append, textColors_printText,
      Bool.false_eq_true, if_false]
    cases s.sbitmap with
    | none => simp [textColors]
    | some bm =>
      simp only
      split <;> simp only [List.singleton_append, textColors]
  · intro hm hv
    simp only [drawnTextColors, draw, hrun, drawSwitch, hm, hv, drawClock, if_true,
      Option.map_some', textColors, textColors_append, ne_eq, not_true_eq_false, if_false]
    split <;> split <;> split <;> simp [textColors]
  · intro hm hv
    simp only [drawnTextColors, draw, hrun, drawSwitch, hm, hv, drawClock, if_true,
      Option.map_some', textColors, textColors_append, ne_eq, not_true_eq_false, if_false]
    split <;> split <;> split <;> simp [textColors]
  · intro hm
    simp only [drawnTextColors, draw, hrun, drawSwitch, hm, drawIconText, if_true,
      Option.map_some', textColors, List.singleton_append, textColors_printText]
    simp only [reduceCtorEq, if_false]
    split <;> simp [textColors]

/-- C12 on a failing input: the running sample context has `rainbow_color`
`(0, 0, 0)`; for the rainbow icon+text slot with white `text_color`, `draw`
passes the white `text_color` to the text call, not `rainbow_color`, while the
same slot in rainbow icon mode gets `rainbow_color`. -/
theorem draw_rainbow_icon_text_colour :
    (sampleConfig.is_running = true
        ∧ rainbowIconTextSlot.mode = MODE_RAINBOW_ICON_TEXT_SCREEN
        ∧ rainbowIconTextSlot.text_color ≠ sampleConfig.rainbow_color)
      ∧ drawnTextColors (draw sampleBuild sampleDrawBuild sampleEnv sampleDrawEnv
          sampleDrawConfig sampleMillis sampleDraws sampleConfig sampleHeat rainbowIconTextSlot)
          = some [rainbowIconTextSlot.text_color]
      ∧ drawnTextColors (draw sampleBuild sampleDrawBuild sampleEnv sampleDrawEnv
          sampleDrawConfig sampleMillis sampleDraws sampleConfig sampleHeat rainbowIconTextSlot)
          ≠ some [sampleConfig.rainbow_color]
      ∧ drawnTextColors (draw sampleBuild sampleDrawBuild sampleEnv sampleDrawEnv
          sampleDrawConfig sampleMillis sampleDraws sampleConfig sampleHeat
          { rainbowIconTextSlot with mode := MODE_RAINBOW_ICON })
          = some [sampleConfig.rainbow_color] := by
  decide

/-! ## Overlay trigger -/

theorem findFrom_some (needle : List Char) :
    ∀ (hay : List Char) (pos p : Nat), findFrom needle hay pos = some p →
      ∃ k, beginsWith needle (hay.drop k) = true := by
  intro hay
  induction hay with
  | nil =>
    intro pos p h
    refine ⟨0, ?_⟩
    simp only [findFrom] at h
    by_cases hb : beginsWith needle [] = true
    · exact hb
    · simp [hb] at h
  | cons c cs ih =>
    intro pos p h
    simp only [findFrom] at h
    by_cases hb : beginsWith needle (c :: cs) = true
    · exact ⟨0, hb⟩
    · simp only [hb] at h
      obtain ⟨k, hk⟩ := ih (pos + 1) p h
      exact ⟨k + 1, hk⟩

theorem findFrom_of_beginsWith (needle : List Char) :
    ∀ (hay : List Char) (pos k : Nat), beginsWith needle (hay.drop k) = true →
      ∃ p, findFrom needle hay pos = some p := by
  intro hay
  induction hay with
  | nil =>
    intro pos k h
    simp only [List.drop_nil] at h
    exact ⟨pos, by simp [findFrom, h]⟩
  | cons c cs ih =>
    intro pos k h
    simp only [findFrom]
    by_cases hb : beginsWith needle (c :: cs) = true
    · exact ⟨pos, by simp [hb]⟩
    · simp only [hb]
      cases k with
      | zero => exact absurd h hb
      | succ k => exact ih (pos + 1) k h

theorem beginsWith_weekday_day (l : List Char) (h : beginsWith "weekday".data l = true) :
    beginsWith "day".data (l.drop 4) = true := by
  have e1 : "weekday".data = ['w', 'e', 'e', 'k', 'd', 'a', 'y'] := rfl
  have e2 : "day".data = ['d', 'a', 'y'] := rfl
  rw [e1] at h
  rw [e2]
  rcases l with _ | ⟨c1, _ | ⟨c2, _ | ⟨c3, _ | ⟨c4, l⟩⟩⟩⟩ <;>
    simp only [beginsWith, Bool.and_eq_true, Bool.false_eq_true, and_false, false_and] at h
  simp only [List.drop_succ_cons, List.drop_zero]
  exact h.2.2.2.2

theorem find_weekday_day (s : String) (h : find s "day" = none) : find s "weekday" = none := by
  cases hw : find s "weekday" with
  | none => rfl
  | some p =>
    obtain ⟨k, hk⟩ := findFrom_some _ _ _ _ hw
    have hd := beginsWith_weekday_day _ hk
    rw [List.drop_drop] at hd
    obtain ⟨q, hq⟩ := findFrom_of_beginsWith "day".data s.data 0 _ hd
    unfold find at h
    rw [h] at hq
    cases hq
theorem find_of_rfind0 (s needle : String) (h : rfind0 s needle = some 0) :
    ∃ p, find s needle = some p := by
  unfold rfind0 at h
  by_cases hb : beginsWith needle.data s.data = true
  · exact findFrom_of_beginsWith needle.data s.data 0 0 hb
  · simp [hb] at h

theorem dayOverlay_ne_nil (de : DrawEnv) (dc : DrawConfig) (info_font : Font) (yoffset : Int)
    (mode : Int) (time : ESPTime) : dayOverlay de dc info_font yoffset mode time ≠ [] := by
  unfold dayOverlay
  simp only
  split <;> simp

theorem weekdayOverlay_ne_nil (de : DrawEnv) (dc : DrawConfig) (info_font : Font)
    (yoffset : Int) (mode : Int) (time : ESPTime) :
    weekdayOverlay de dc info_font yoffset mode time ≠ [] := by
  unfold weekdayOverlay
  simp only
  split <;> simp

/-- The overlay block draws no glyph when the icon name does not contain
`day`, and at least one glyph whenever the name contains `day` anywhere and
its suffix parses; a name without `#` selects submode 0. -/
theorem overlay_drawn_iff_contains_day (de : DrawEnv) (dc : DrawConfig) (info_font : Font)
    (yoffset : Int) (icon_name : String) (time : ESPTime) :
    (find icon_name "day" = none →
        overlay de dc info_font yoffset icon_name time = some [])
      ∧ (∀ p m, find icon_name "day" = some p → overlayMode icon_name = some m →
          ∃ g gs, overlay de dc info_font yoffset icon_name time = some (g :: gs))
      ∧ (find icon_name "#" = none → overlayMode icon_name = some 0) := by
  have hweek : find icon_name "day" = none → find icon_name "weekday" = none :=
    find_weekday_day icon_name
  refine ⟨?_, ?_, ?_⟩
  · intro h
    simp [overlay, h, hweek h]
  · intro p m hp hm
    simp only [overlay, hp, hm, Option.isSome_some, true_or, if_true]
    split
    · cases hd : dayOverlay de dc info_font yoffset m time with
      | nil => exact absurd hd (dayOverlay_ne_nil _ _ _ _ _ _)
      | cons g gs => exact ⟨g, gs, rfl⟩
    · cases hd : weekdayOverlay de dc info_font yoffset m time with
      | nil => exact absurd hd (weekdayOverlay_ne_nil _ _ _ _ _ _)
      | cons g gs => exact ⟨g, gs, rfl⟩
  · intro h
    simp [overlayMode, h]

/-- C13 on a failing input: the icon name `sunday` starts with neither `day`
nor `weekday` and has no `#`, so its submode is 0; yet with a valid clock `draw`
in icon+clock mode issues, after the time, the icon and the day-of-week
indicator, the two weekday glyphs of the overlay. -/
theorem draw_overlay_without_day_start :
    (rfind0 "sunday" "day" = none ∧ rfind0 "sunday" "weekday" = none
        ∧ find "sunday" "#" = none ∧ overlayMode "sunday" = some 0)
      ∧ (sampleConfig.is_running = true ∧ sundaySlot.mode = MODE_ICON_CLOCK
        ∧ sundaySlot.icon_name = "sunday" ∧ (sampleDrawEnv.now 0).is_valid = true)
      ∧ drawnCmds (draw sampleBuild sampleDrawBuild sampleEnv sampleDrawEnv sampleDrawConfig
          sampleMillis sampleDraws sampleConfig sampleHeat sundaySlot)
          = some [Cmd.clear,
              Cmd.strftime 20 6 ⟨0⟩ ⟨255, 255, 255⟩ TextAlign.BASELINE_CENTER "%H:%M"
                ⟨true, 1700000000, 30, 17, 3⟩,
              Cmd.image 0 0 2,
              Cmd.draw_day_of_week (some true),
              Cmd.printf 0 6 ⟨0⟩ ⟨1, 2, 3⟩ TextAlign.BASELINE_LEFT "%s" (Arg.str "T"),
              Cmd.printf 5 6 ⟨0⟩ ⟨4, 5, 6⟩ TextAlign.BASELINE_LEFT "%s" (Arg.str "u")] := by
  decide

end EHMTXv2
